import Mathlib

/-!
# Label extraction from workload manifests

A shallow embedding of `pkg/policy/trace/yaml.go` (package `trace`):
`parseKind`, `getKindsFromYaml` and `GetLabelsFromYaml`.

Modelling conventions.

* A Go result pair `(slice, error)` is `Outcome.returned val err`, where `val = none`
  is the nil slice and `err = none` is the nil error.  A run-time panic (a failed
  single-value type assertion, a field read through a nil pointer) is
  `Outcome.panicked`.
* The YAML decoder is an external primitive.  A file is the finite sequence of
  its documents; each `Document` records what `Decode` yields for it for every
  target the code decodes into (`interface{}` and the three typed shapes).  After the
  last document `Decode` yields `io.EOF`.
* `os.Open` is a lookup in a `FileSystem`; both passes of `GetLabelsFromYaml` read
  the same file system, i.e. the file is not modified between the two opens.
* Go leaves the order of `range` over a map unspecified; it is an explicit
  parameter (`RangeOrder`) that may pick any permutation of the entries, and a
  different one for every document.
-/

namespace Trace

/-! ## Constants -/

/-- ReplicationController represents a Kubernetes ReplicationController kind. -/
def ReplicationController : String := "ReplicationController"

/-- Deployment represents a Kubernetes Deployment kind. -/
def Deployment : String := "Deployment"

/-- ReplicaSet represents a Kubernetes ReplicaSet kind. -/
def ReplicaSet : String := "ReplicaSet"

/-- DefaultNamespace represents the default Kubernetes namespace. -/
def DefaultNamespace : String := "default"

/-! ## Errors and results -/

/-- An error value produced by the YAML decoder for one document (other than `io.EOF`). -/
structure DecodeError where
  msg : String
  deriving DecidableEq, Repr

/-- An error value produced by `os.Open`. -/
structure PathError where
  msg : String
  deriving DecidableEq, Repr

/-- Go `error` values that occur in the package. -/
inductive Error where
  /-- The sentinel `io.EOF`. -/
  | EOF
  /-- An error of `os.Open`. -/
  | path (e : PathError)
  /-- An error of `yamlDecoder.Decode`. -/
  | decode (e : DecodeError)
  /-- An error built by `fmt.Errorf`, with its formatted message. -/
  | errorf (msg : String)
  deriving DecidableEq, Repr

/-- The outcome of calling a Go function of result type `(T, error)`. -/
inductive Outcome (α : Type) where
  /-- The call returned `(val, err)`; `none` stands for `nil`. -/
  | returned (val : Option α) (err : Option Error)
  /-- The call was aborted by a run-time panic. -/
  | panicked
  deriving DecidableEq, Repr

/-- The message of `fmt.Errorf("%s, %s, and %s are the only supported types at this time",
Deployment, ReplicationController, ReplicaSet)`. -/
def unsupportedMsg : String :=
  Deployment ++ ", " ++ ReplicationController ++ ", and " ++ ReplicaSet ++
    " are the only supported types at this time"

/-- The message of
`fmt.Errorf("Improperly formatted YAML provided; %q did not map to a string", "kind")`. -/
def notStringMsg : String :=
  "Improperly formatted YAML provided; " ++ "\"kind\"" ++ " did not map to a string"

/-- The message of `fmt.Errorf("Improperly formatted YAML provided")`. -/
def noKindMsg : String := "Improperly formatted YAML provided"

/-- The error kind the specification calls `MalformedManifestError`: valid YAML
whose `kind` field is missing or is not a string. -/
def Error.IsMalformedManifest (e : Error) : Prop :=
  e = Error.errorf noKindMsg ∨ e = Error.errorf notStringMsg

/-- The error kind the specification calls `UnsupportedKindError`: a `kind` string
outside the supported set. -/
def Error.IsUnsupportedKind (e : Error) : Prop :=
  e = Error.errorf unsupportedMsg

instance (e : Error) : Decidable e.IsMalformedManifest := by
  unfold Error.IsMalformedManifest; infer_instance

instance (e : Error) : Decidable e.IsUnsupportedKind := by
  unfold Error.IsUnsupportedKind; infer_instance

/-! ## Decoded data -/

/-- A value decoded into `interface{}`: the dynamic types the YAML-to-JSON decoder
produces. -/
inductive Value where
  | null
  | bool (b : Bool)
  | number (lit : String)
  | string (s : String)
  | array (xs : List Value)
  /-- A `map[string]interface{}`, as its entries; lookup takes the first match. -/
  | object (m : List (String × Value))

/-- A Go `map[string]string`, as its entries. -/
abbrev StringMap := List (String × String)

/-- Modelled from the spec: the typed shapes the documents are decoded into
(`v1beta1.Deployment`, `v1.ReplicationController`, `v1beta1.ReplicaSet`) are declared
outside the source file; "each exposes a namespace field and a pod-template label
mapping".  `PodTemplateSpec` carries the label mapping read as `Spec.Template.Labels`. -/
structure PodTemplateSpec where
  Labels : StringMap
  deriving DecidableEq, Repr

/-- Modelled from the spec: the `Spec` field of `v1beta1.Deployment`. -/
structure v1beta1.DeploymentSpec where
  Template : PodTemplateSpec
  deriving DecidableEq, Repr

/-- Modelled from the spec: `v1beta1.Deployment`, with the fields the code reads. -/
structure v1beta1.Deployment where
  Namespace : String
  Spec : v1beta1.DeploymentSpec
  deriving DecidableEq, Repr

/-- Modelled from the spec: the `Spec` field of `v1.ReplicationController`, declared
outside the source file.  Unlike the two `v1beta1` specs, which hold the pod template by
value, the Kubernetes API declares this `Template` as a pointer (`*PodTemplateSpec`): it
is `none` (nil) after decoding a manifest that has no `spec.template`. -/
structure v1.ReplicationControllerSpec where
  Template : Option PodTemplateSpec
  deriving DecidableEq, Repr

/-- Modelled from the spec: `v1.ReplicationController`, with the fields the code reads. -/
structure v1.ReplicationController where
  Namespace : String
  Spec : v1.ReplicationControllerSpec
  deriving DecidableEq, Repr

/-- Modelled from the spec: the `Spec` field of `v1beta1.ReplicaSet`. -/
structure v1beta1.ReplicaSetSpec where
  Template : PodTemplateSpec
  deriving DecidableEq, Repr

/-- Modelled from the spec: `v1beta1.ReplicaSet`, with the fields the code reads. -/
structure v1beta1.ReplicaSet where
  Namespace : String
  Spec : v1beta1.ReplicaSetSpec
  deriving DecidableEq, Repr

/-- One YAML document of a file, seen through the decoder: what `Decode` yields for
it for each target the code passes. -/
structure Document where
  /-- Result of `Decode(&yamlData)` with `yamlData interface{}`. -/
  untyped : Except DecodeError Value
  /-- Result of `Decode(&deployment)` with `deployment v1beta1.Deployment`. -/
  deployment : Except DecodeError v1beta1.Deployment
  /-- Result of `Decode(&controller)` with `controller v1.ReplicationController`. -/
  controller : Except DecodeError v1.ReplicationController
  /-- Result of `Decode(&rep)` with `rep v1beta1.ReplicaSet`. -/
  rep : Except DecodeError v1beta1.ReplicaSet

/-- The files `os.Open` can see: a path either fails to open or holds a sequence of
documents. -/
abbrev FileSystem := String → Except PathError (List Document)

/-- The order in which `range` visits the entries of a map: some permutation of
the entries, chosen per document (the argument is the index of the document). -/
structure RangeOrder where
  order : Nat → StringMap → StringMap
  perm : ∀ i m, (order i m).Perm m

/-- The range order that visits the entries as listed. -/
def RangeOrder.listed : RangeOrder where
  order := fun _ m => m
  perm := fun _ _ => List.Perm.refl _

/-- The range order that visits the entries in reverse. -/
def RangeOrder.reversed : RangeOrder where
  order := fun _ m => m.reverse
  perm := fun _ m => List.reverse_perm m

/-! ## The label helpers of `pkg/labels` -/

/-- Modelled from the spec: `labels.K8sNamespaceLabel` is declared in `pkg/labels`; the
namespace label has "the form `k8s:io.kubernetes.pod.namespace=<namespace>`". -/
def K8sNamespaceLabel : String := "io.kubernetes.pod.namespace"

/-- Modelled from the spec: `labels.GenerateK8sLabelString` is declared in `pkg/labels`;
it is "a pure function `format(key, value) -> string`" whose results
"have the form `k8s:<label-key>=<label-value>`". -/
def GenerateK8sLabelString (k v : String) : String :=
  "k8s:" ++ k ++ "=" ++ v

/-! ## `parseKind` -/

/-- The function `parseKind`: the value of the `kind` field, or an error when there is
none, it is not a string, or it is not one of the three supported kinds. -/
def parseKind (yamlData : List (String × Value)) : String × Option Error :=
  match yamlData.lookup "kind" with
  | some v =>
    match v with
    | Value.string vStr =>
      if vStr = Deployment ∨ vStr = ReplicationController ∨ vStr = ReplicaSet then
        (vStr, none)
      else
        ("", some (Error.errorf unsupportedMsg))
    | _ => ("", some (Error.errorf notStringMsg))
  | none => ("", some (Error.errorf noKindMsg))

/-! ## `getKindsFromYaml` -/

/-- The loop of `getKindsFromYaml` over the documents still to be read, with the
kinds accumulated so far. -/
def getKindsLoop : List Document → List String → Outcome (List String)
  -- `Decode` yields `io.EOF`: `break`, then `return kinds, nil`
  | [], kinds => Outcome.returned (some kinds) none
  | d :: rest, kinds =>
    match d.untyped with
    | Except.error e =>
      -- `err != nil`: `io.EOF` breaks out of the loop, any other error is returned
      if Error.decode e = Error.EOF then Outcome.returned (some kinds) none
      else Outcome.returned none (some (Error.decode e))
    | Except.ok yamlData =>
      -- `m := yamlData.(map[string]interface{})` panics unless the value is a mapping
      match yamlData with
      | Value.object m =>
        match parseKind m with
        | (_, some err) => Outcome.returned none (some err)
        | (kind, none) => getKindsLoop rest (kinds ++ [kind])
      | _ => Outcome.panicked

/-- The function `getKindsFromYaml`: the `kind` of every document of the file. -/
def getKindsFromYaml (fs : FileSystem) (file : String) : Outcome (List String) :=
  match fs file with
  | Except.error e => Outcome.returned none (some (Error.path e))
  | Except.ok reader => getKindsLoop reader []

/-! ## `GetLabelsFromYaml` -/

/-- `yamlDecoder.Decode(&deployment)` on the second stream. -/
def decodeDeployment : List Document → Except Error v1beta1.Deployment × List Document
  | [] => (Except.error Error.EOF, [])
  | d :: rest =>
    (match d.deployment with
      | Except.ok x => Except.ok x
      | Except.error e => Except.error (Error.decode e), rest)

/-- `yamlDecoder.Decode(&controller)` on the second stream. -/
def decodeController :
    List Document → Except Error v1.ReplicationController × List Document
  | [] => (Except.error Error.EOF, [])
  | d :: rest =>
    (match d.controller with
      | Except.ok x => Except.ok x
      | Except.error e => Except.error (Error.decode e), rest)

/-- `yamlDecoder.Decode(&rep)` on the second stream. -/
def decodeReplicaSet : List Document → Except Error v1beta1.ReplicaSet × List Document
  | [] => (Except.error Error.EOF, [])
  | d :: rest =>
    (match d.rep with
      | Except.ok x => Except.ok x
      | Except.error e => Except.error (Error.decode e), rest)

/-- The inner loop `for k, v := range labels { yamlLabels = append(yamlLabels, ...) }`,
visiting the entries in the order `entries`. -/
def appendLabels (yamlLabels : List String) (entries : StringMap) : List String :=
  entries.foldl (fun ys kv => ys ++ [GenerateK8sLabelString kv.1 kv.2]) yamlLabels

/-- The loop `for _, v := range kinds` of `GetLabelsFromYaml`: `stream` is what the
second decoder has still to read, `i` the index of the current document and
`splitYamlLabels` the groups built so far. -/
def labelsLoop (ro : RangeOrder) :
    List String → List Document → Nat → List (List String) → Outcome (List (List String))
  | [], _, _, splitYamlLabels => Outcome.returned (some splitYamlLabels) none
  | v :: kinds, stream, i, splitYamlLabels =>
    if v = Deployment then
      match decodeDeployment stream with
      | (Except.error err, _) => Outcome.returned none (some err)
      | (Except.ok deployment, stream) =>
        let ns := if deployment.Namespace ≠ "" then deployment.Namespace else DefaultNamespace
        let yamlLabels := [] ++ [GenerateK8sLabelString K8sNamespaceLabel ns]
        let yamlLabels := appendLabels yamlLabels (ro.order i deployment.Spec.Template.Labels)
        labelsLoop ro kinds stream (i + 1) (splitYamlLabels ++ [yamlLabels])
    else if v = ReplicationController then
      match decodeController stream with
      | (Except.error err, _) => Outcome.returned none (some err)
      | (Except.ok controller, stream) =>
        let ns := if controller.Namespace ≠ "" then controller.Namespace else DefaultNamespace
        let yamlLabels := [] ++ [GenerateK8sLabelString K8sNamespaceLabel ns]
        -- `controller.Spec.Template` is a pointer: reading `.Labels` through nil panics
        match controller.Spec.Template with
        | none => Outcome.panicked
        | some template =>
          let yamlLabels := appendLabels yamlLabels (ro.order i template.Labels)
          labelsLoop ro kinds stream (i + 1) (splitYamlLabels ++ [yamlLabels])
    else if v = ReplicaSet then
      match decodeReplicaSet stream with
      | (Except.error err, _) => Outcome.returned none (some err)
      | (Except.ok rep, stream) =>
        let ns := if rep.Namespace ≠ "" then rep.Namespace else DefaultNamespace
        let yamlLabels := [] ++ [GenerateK8sLabelString K8sNamespaceLabel ns]
        let yamlLabels := appendLabels yamlLabels (ro.order i rep.Spec.Template.Labels)
        labelsLoop ro kinds stream (i + 1) (splitYamlLabels ++ [yamlLabels])
    else
      Outcome.returned none (some (Error.errorf unsupportedMsg))

/-- The function `GetLabelsFromYaml`: for each document of the file, its labels, or
an error. -/
def GetLabelsFromYaml (ro : RangeOrder) (fs : FileSystem) (file : String) :
    Outcome (List (List String)) :=
  match getKindsFromYaml fs file with
  | Outcome.panicked => Outcome.panicked
  | Outcome.returned _ (some err) => Outcome.returned none (some err)
  | Outcome.returned kinds none =>
    match fs file with
    | Except.error e => Outcome.returned none (some (Error.path e))
    | Except.ok reader => labelsLoop ro (kinds.getD []) reader 0 []

/-! ## Sample documents -/

/-- A decode error of the typed decoder. -/
def sampleTypeError : DecodeError :=
  ⟨"json: cannot unmarshal number into Go value of type v1beta1.DeploymentSpec"⟩

/-- A document of the given kind, namespace and pod-template labels, as the decoder
sees it for every target (the typed decoders ignore the `kind` field). -/
def mkDoc (kind ns : String) (labels : StringMap) : Document where
  untyped := Except.ok (Value.object [("kind", Value.string kind)])
  deployment := Except.ok ⟨ns, ⟨⟨labels⟩⟩⟩
  controller := Except.ok ⟨ns, ⟨some ⟨labels⟩⟩⟩
  rep := Except.ok ⟨ns, ⟨⟨labels⟩⟩⟩

/-- The file system in which every path holds the documents `ds`. -/
def fsOf (ds : List Document) : FileSystem := fun _ => Except.ok ds

/-- A Deployment manifest whose `spec` is a number: the untyped decode succeeds, every
typed decode fails. -/
def badSpecDoc : Document where
  untyped := Except.ok (Value.object [("kind", Value.string "Deployment"),
    ("spec", Value.number "5")])
  deployment := Except.error sampleTypeError
  controller := Except.error ⟨"json: cannot unmarshal number into Go value of type v1.ReplicationControllerSpec"⟩
  rep := Except.error ⟨"json: cannot unmarshal number into Go value of type v1beta1.ReplicaSetSpec"⟩

/-- A mapping document without a `kind` field (`metadata: ...` only); the typed
decoders accept it and leave the fields empty. -/
def noKindDoc : Document where
  untyped := Except.ok (Value.object [("metadata", Value.object [("name", Value.string "web")])])
  deployment := Except.ok ⟨"", ⟨⟨[]⟩⟩⟩
  controller := Except.ok ⟨"", ⟨none⟩⟩
  rep := Except.ok ⟨"", ⟨⟨[]⟩⟩⟩

/-- A document whose top level is a YAML sequence (`- a`): it decodes to a list, and
no typed decode accepts it. -/
def listDoc : Document where
  untyped := Except.ok (Value.array [Value.string "a"])
  deployment := Except.error ⟨"json: cannot unmarshal array into Go value of type v1beta1.Deployment"⟩
  controller := Except.error ⟨"json: cannot unmarshal array into Go value of type v1.ReplicationController"⟩
  rep := Except.error ⟨"json: cannot unmarshal array into Go value of type v1beta1.ReplicaSet"⟩

/-- An empty document: it decodes to `null`, and every typed decode leaves its target
at the zero value. -/
def nullDoc : Document where
  untyped := Except.ok Value.null
  deployment := Except.ok ⟨"", ⟨⟨[]⟩⟩⟩
  controller := Except.ok ⟨"", ⟨none⟩⟩
  rep := Except.ok ⟨"", ⟨⟨[]⟩⟩⟩

/-- A manifest with a `kind` and a `metadata.namespace` but no `spec`: every typed decode
succeeds; the label map is empty where the template is held by value, and the template
pointer of the ReplicationController is nil. -/
def noTemplateDoc (kind ns : String) : Document where
  untyped := Except.ok (Value.object [("kind", Value.string kind),
    ("metadata", Value.object [("namespace", Value.string ns)])])
  deployment := Except.ok ⟨ns, ⟨⟨[]⟩⟩⟩
  controller := Except.ok ⟨ns, ⟨none⟩⟩
  rep := Except.ok ⟨ns, ⟨⟨[]⟩⟩⟩

/-- A document with a YAML syntax error: every decode fails. -/
def syntaxErrorDoc : Document where
  untyped := Except.error ⟨"yaml: line 2: mapping values are not allowed in this context"⟩
  deployment := Except.error ⟨"yaml: line 2: mapping values are not allowed in this context"⟩
  controller := Except.error ⟨"yaml: line 2: mapping values are not allowed in this context"⟩
  rep := Except.error ⟨"yaml: line 2: mapping values are not allowed in this context"⟩

/-! ## Vocabulary of the statements -/

/-- The string `k` is one of the three supported kinds. -/
def Supported (k : String) : Prop :=
  k = Deployment ∨ k = ReplicationController ∨ k = ReplicaSet

instance (k : String) : Decidable (Supported k) := by
  unfold Supported; infer_instance

/-- Document `d` decodes to a mapping whose `kind` entry is the string `k`. -/
def Document.HasKind (d : Document) (k : String) : Prop :=
  ∃ m, d.untyped = Except.ok (Value.object m) ∧ m.lookup "kind" = some (Value.string k)

/-- Document `d` decodes to a mapping that has no `kind` entry. -/
def Document.NoKind (d : Document) : Prop :=
  ∃ m, d.untyped = Except.ok (Value.object m) ∧ m.lookup "kind" = none

/-- Document `d` passes the kind-scanning pass, which records kind `k` for it. -/
def Document.Accepted (d : Document) (k : String) : Prop :=
  ∃ m, d.untyped = Except.ok (Value.object m) ∧ parseKind m = (k, none)

/-- Document `d` fails in the kind-scanning pass with error `e`: its untyped decode
fails with `e`, or it decodes to a mapping for which `parseKind` returns `e`. -/
def Document.ScanFails (d : Document) (e : Error) : Prop :=
  (∃ de, d.untyped = Except.error de ∧ e = Error.decode de) ∨
  (∃ m s, d.untyped = Except.ok (Value.object m) ∧ parseKind m = (s, some e))

/-- The typed decode that the second pass selects for kind `k` succeeds on `d`, with
namespace `ns` and pod-template labels `L`; for a ReplicationController the template
pointer is not nil and `L` is read through it. -/
def Document.DecodesTo (d : Document) (k ns : String) (L : StringMap) : Prop :=
  (k = Deployment ∧ ∃ x, d.deployment = Except.ok x ∧
    x.Namespace = ns ∧ x.Spec.Template.Labels = L) ∨
  (k = ReplicationController ∧ ∃ x t, d.controller = Except.ok x ∧
    x.Namespace = ns ∧ x.Spec.Template = some t ∧ t.Labels = L) ∨
  (k = ReplicaSet ∧ ∃ x, d.rep = Except.ok x ∧
    x.Namespace = ns ∧ x.Spec.Template.Labels = L)

/-- Kind `k` is ReplicationController and the typed decode of `d` succeeds with a nil
template pointer (the manifest has no `spec.template`). -/
def Document.NilTemplate (d : Document) (k : String) : Prop :=
  k = ReplicationController ∧ ∃ x, d.controller = Except.ok x ∧ x.Spec.Template = none

/-- The typed decode that the second pass selects for kind `k` fails on `d` with
decoder error `e`. -/
def Document.TypedFails (d : Document) (k : String) (e : DecodeError) : Prop :=
  (k = Deployment ∧ d.deployment = Except.error e) ∨
  (k = ReplicationController ∧ d.controller = Except.error e) ∨
  (k = ReplicaSet ∧ d.rep = Except.error e)

/-- The label group built from namespace `ns` and labels `L` when the entries are
visited in the order chosen for document `i`. -/
def labelGroup (ro : RangeOrder) (i : Nat) (ns : String) (L : StringMap) : List String :=
  GenerateK8sLabelString K8sNamespaceLabel (if ns ≠ "" then ns else DefaultNamespace) ::
    (ro.order i L).map (fun kv => GenerateK8sLabelString kv.1 kv.2)

/-- The groups the second pass builds for documents `ds` with kinds `ks`, the first
of them having index `i`. -/
inductive GroupsOf (ro : RangeOrder) :
    Nat → List Document → List String → List (List String) → Prop where
  | nil (i : Nat) : GroupsOf ro i [] [] []
  | cons {i : Nat} {d : Document} {k ns : String} {L : StringMap}
      {ds : List Document} {ks : List String} {gs : List (List String)} :
      d.DecodesTo k ns L → GroupsOf ro (i + 1) ds ks gs →
      GroupsOf ro i (d :: ds) (k :: ks) (labelGroup ro i ns L :: gs)

/-! ## Lemmas on `parseKind` -/

theorem kinds_distinct :
    Deployment ≠ ReplicationController ∧ Deployment ≠ ReplicaSet ∧
      ReplicationController ≠ ReplicaSet := by decide

theorem parseKind_missing (m : List (String × Value)) (h : m.lookup "kind" = none) :
    parseKind m = ("", some (Error.errorf noKindMsg)) := by
  simp [parseKind, h]

theorem parseKind_supported (m : List (String × Value)) (k : String)
    (h : m.lookup "kind" = some (Value.string k)) (hk : Supported k) :
    parseKind m = (k, none) := by
  unfold Supported at hk
  simp [parseKind, h, hk]

theorem parseKind_unsupported (m : List (String × Value)) (k : String)
    (h : m.lookup "kind" = some (Value.string k)) (hk : ¬ Supported k) :
    parseKind m = ("", some (Error.errorf unsupportedMsg)) := by
  unfold Supported at hk
  simp [parseKind, h, hk]

theorem parseKind_notString (m : List (String × Value)) (v : Value)
    (h : m.lookup "kind" = some v) (hv : ∀ s, v ≠ Value.string s) :
    parseKind m = ("", some (Error.errorf notStringMsg)) := by
  cases v with
  | string s => exact absurd rfl (hv s)
  | _ => simp [parseKind, h]

theorem parseKind_ok_iff (m : List (String × Value)) (k : String) :
    parseKind m = (k, none) ↔ m.lookup "kind" = some (Value.string k) ∧ Supported k := by
  constructor
  · intro h
    cases hl : m.lookup "kind" with
    | none => rw [parseKind_missing m hl] at h; simp at h
    | some v =>
      by_cases hv : ∃ s, v = Value.string s
      · obtain ⟨s, rfl⟩ := hv
        by_cases hs : Supported s
        · rw [parseKind_supported m s hl hs] at h
          simp only [Prod.mk.injEq, and_true] at h
          subst h
          exact ⟨rfl, hs⟩
        · rw [parseKind_unsupported m s hl hs] at h; simp at h
      · rw [parseKind_notString m v hl (fun s hs => hv ⟨s, hs⟩)] at h; simp at h
  · rintro ⟨h, hk⟩
    exact parseKind_supported m k h hk

theorem parseKind_err_fst (m : List (String × Value)) (s : String) (e : Error)
    (h : parseKind m = (s, some e)) : s = "" := by
  cases hl : m.lookup "kind" with
  | none => rw [parseKind_missing m hl] at h; simp at h; exact h.1.symm
  | some v =>
    by_cases hv : ∃ t, v = Value.string t
    · obtain ⟨t, rfl⟩ := hv
      by_cases hs : Supported t
      · rw [parseKind_supported m t hl hs] at h; simp at h
      · rw [parseKind_unsupported m t hl hs] at h; simp at h; exact h.1.symm
    · rw [parseKind_notString m v hl (fun t ht => hv ⟨t, ht⟩)] at h; simp at h; exact h.1.symm

theorem accepted_iff (d : Document) (k : String) :
    d.Accepted k ↔ d.HasKind k ∧ Supported k := by
  unfold Document.Accepted Document.HasKind
  constructor
  · rintro ⟨m, hm, hp⟩
    exact ⟨⟨m, hm, ((parseKind_ok_iff m k).1 hp).1⟩, ((parseKind_ok_iff m k).1 hp).2⟩
  · rintro ⟨⟨m, hm, hl⟩, hk⟩
    exact ⟨m, hm, (parseKind_ok_iff m k).2 ⟨hl, hk⟩⟩

/-! ## Lemmas on the scanning loop -/

theorem getKindsLoop_decodeError (d : Document) (rest : List Document) (acc : List String)
    (e : DecodeError) (h : d.untyped = Except.error e) :
    getKindsLoop (d :: rest) acc = Outcome.returned none (some (Error.decode e)) := by
  simp [getKindsLoop, h]

theorem getKindsLoop_accept (d : Document) (rest : List Document) (acc : List String)
    (k : String) (h : d.Accepted k) :
    getKindsLoop (d :: rest) acc = getKindsLoop rest (acc ++ [k]) := by
  obtain ⟨m, hm, hp⟩ := h
  simp [getKindsLoop, hm, hp]

theorem getKindsLoop_reject (d : Document) (rest : List Document) (acc : List String)
    (m : List (String × Value)) (s : String) (e : Error)
    (hm : d.untyped = Except.ok (Value.object m)) (hp : parseKind m = (s, some e)) :
    getKindsLoop (d :: rest) acc = Outcome.returned none (some e) := by
  simp [getKindsLoop, hm, hp]

theorem getKindsLoop_fail (d : Document) (rest : List Document) (acc : List String)
    (e : Error) (h : d.ScanFails e) :
    getKindsLoop (d :: rest) acc = Outcome.returned none (some e) := by
  rcases h with ⟨de, hde, rfl⟩ | ⟨m, s, hm, hp⟩
  · exact getKindsLoop_decodeError d rest acc de hde
  · exact getKindsLoop_reject d rest acc m s e hm hp

theorem getKindsLoop_notMapping (d : Document) (rest : List Document) (acc : List String)
    (v : Value) (h : d.untyped = Except.ok v) (hv : ∀ m, v ≠ Value.object m) :
    getKindsLoop (d :: rest) acc = Outcome.panicked := by
  cases v with
  | object m => exact absurd rfl (hv m)
  | _ => simp [getKindsLoop, h]

theorem getKindsLoop_prefix (pre rest : List Document) (ks acc : List String)
    (h : List.Forall₂ Document.Accepted pre ks) :
    getKindsLoop (pre ++ rest) acc = getKindsLoop rest (acc ++ ks) := by
  induction h generalizing acc with
  | nil => simp
  | cons hd _ ih =>
    rw [List.cons_append, getKindsLoop_accept _ _ _ _ hd, ih]
    simp

/-- Every run of the scanning loop ends in one of three ways: all documents are
accepted; some first document fails with an error; some first document is not a
mapping and the type assertion panics. -/
theorem getKindsLoop_cases (ds : List Document) (acc : List String) :
    (∃ ks, List.Forall₂ Document.Accepted ds ks ∧
      getKindsLoop ds acc = Outcome.returned (some (acc ++ ks)) none) ∨
    (∃ pre d post ks e, ds = pre ++ d :: post ∧ List.Forall₂ Document.Accepted pre ks ∧
      d.ScanFails e ∧ getKindsLoop ds acc = Outcome.returned none (some e)) ∨
    (∃ pre d post ks v, ds = pre ++ d :: post ∧ List.Forall₂ Document.Accepted pre ks ∧
      d.untyped = Except.ok v ∧ (∀ m, v ≠ Value.object m) ∧
      getKindsLoop ds acc = Outcome.panicked) := by
  induction ds generalizing acc with
  | nil => exact Or.inl ⟨[], List.Forall₂.nil, by simp [getKindsLoop]⟩
  | cons d rest ih =>
    cases hu : d.untyped with
    | error de =>
      exact Or.inr (Or.inl ⟨[], d, rest, [], Error.decode de, rfl, List.Forall₂.nil,
        Or.inl ⟨de, hu, rfl⟩, getKindsLoop_decodeError d rest acc de hu⟩)
    | ok v =>
      by_cases hv : ∃ m, v = Value.object m
      · obtain ⟨m, rfl⟩ := hv
        cases hp : parseKind m with
        | mk s oe =>
          cases oe with
          | some e =>
            exact Or.inr (Or.inl ⟨[], d, rest, [], e, rfl, List.Forall₂.nil,
              Or.inr ⟨m, s, hu, hp⟩, getKindsLoop_reject d rest acc m s e hu hp⟩)
          | none =>
            have hacc : d.Accepted s := ⟨m, hu, hp⟩
            rw [getKindsLoop_accept d rest acc s hacc]
            rcases ih (acc ++ [s]) with ⟨ks, hks, hr⟩ | ⟨pre, x, post, ks, e, hds, hks, hf, hr⟩ |
                ⟨pre, x, post, ks, w, hds, hks, hw, hnm, hr⟩
            · exact Or.inl ⟨s :: ks, List.Forall₂.cons hacc hks, by simpa using hr⟩
            · exact Or.inr (Or.inl ⟨d :: pre, x, post, s :: ks, e, by simp [hds],
                List.Forall₂.cons hacc hks, hf, hr⟩)
            · exact Or.inr (Or.inr ⟨d :: pre, x, post, s :: ks, w, by simp [hds],
                List.Forall₂.cons hacc hks, hw, hnm, hr⟩)
      · exact Or.inr (Or.inr ⟨[], d, rest, [], v, rfl, List.Forall₂.nil, hu,
          fun m hm => hv ⟨m, hm⟩, getKindsLoop_notMapping d rest acc v hu
            (fun m hm => hv ⟨m, hm⟩)⟩)

theorem hasKind_unique (d : Document) (k k2 : String) (h : d.HasKind k) (h2 : d.HasKind k2) :
    k = k2 := by
  obtain ⟨m, hm, hl⟩ := h
  obtain ⟨m2, hm2, hl2⟩ := h2
  rw [hm] at hm2
  injection hm2 with hm2
  injection hm2 with hm2
  subst hm2
  rw [hl] at hl2
  injection hl2 with hl2
  injection hl2

theorem accepted_get (ds : List Document) (ks : List String)
    (h : List.Forall₂ Document.Accepted ds ks) (j : Nat) (d : Document)
    (hd : ds[j]? = some d) : ∃ k, ks[j]? = some k ∧ d.Accepted k := by
  induction h generalizing j with
  | nil => simp at hd
  | cons hx _ ih =>
    cases j with
    | zero =>
      simp only [List.getElem?_cons_zero, Option.some.injEq] at hd
      subst hd
      exact ⟨_, by simp, hx⟩
    | succ j =>
      simp only [List.getElem?_cons_succ] at hd
      obtain ⟨k, hk, hacc⟩ := ih j hd
      exact ⟨k, by simpa using hk, hacc⟩

/-! ## Lemmas on the second pass -/

theorem appendLabels_eq (ys : List String) (es : StringMap) :
    appendLabels ys es = ys ++ es.map (fun kv => GenerateK8sLabelString kv.1 kv.2) := by
  unfold appendLabels
  induction es generalizing ys with
  | nil => simp
  | cons e es ih => simp [List.foldl, ih]

theorem labelsLoop_ok (ro : RangeOrder) (k : String) (ks : List String) (d : Document)
    (rest : List Document) (i : Nat) (acc : List (List String)) (ns : String) (L : StringMap)
    (h : d.DecodesTo k ns L) :
    labelsLoop ro (k :: ks) (d :: rest) i acc =
      labelsLoop ro ks rest (i + 1) (acc ++ [labelGroup ro i ns L]) := by
  have hd := kinds_distinct
  rcases h with ⟨rfl, x, hx, rfl, rfl⟩ | ⟨rfl, x, t, hx, rfl, ht, rfl⟩ |
      ⟨rfl, x, hx, rfl, rfl⟩
  · simp [labelsLoop, decodeDeployment, hx, appendLabels_eq, labelGroup]
  · simp [labelsLoop, decodeController, hx, ht, appendLabels_eq, labelGroup, hd.1.symm]
  · simp [labelsLoop, decodeReplicaSet, hx, appendLabels_eq, labelGroup, hd.2.1.symm,
      hd.2.2.symm]

theorem labelsLoop_nilTemplate (ro : RangeOrder) (k : String) (ks : List String)
    (d : Document) (rest : List Document) (i : Nat) (acc : List (List String))
    (h : d.NilTemplate k) :
    labelsLoop ro (k :: ks) (d :: rest) i acc = Outcome.panicked := by
  have hd := kinds_distinct
  obtain ⟨rfl, x, hx, ht⟩ := h
  simp [labelsLoop, decodeController, hx, ht, hd.1.symm]

theorem labelsLoop_err (ro : RangeOrder) (k : String) (ks : List String) (d : Document)
    (rest : List Document) (i : Nat) (acc : List (List String)) (e : DecodeError)
    (h : d.TypedFails k e) :
    labelsLoop ro (k :: ks) (d :: rest) i acc =
      Outcome.returned none (some (Error.decode e)) := by
  have hd := kinds_distinct
  rcases h with ⟨rfl, hx⟩ | ⟨rfl, hx⟩ | ⟨rfl, hx⟩
  · simp [labelsLoop, decodeDeployment, hx]
  · simp [labelsLoop, decodeController, hx, hd.1.symm]
  · simp [labelsLoop, decodeReplicaSet, hx, hd.2.1.symm, hd.2.2.symm]

theorem typed_total (d : Document) (k : String) (hk : Supported k) :
    (∃ ns L, d.DecodesTo k ns L) ∨ (∃ e, d.TypedFails k e) ∨ d.NilTemplate k := by
  rcases hk with rfl | rfl | rfl
  · cases hx : d.deployment with
    | ok x => exact Or.inl ⟨_, _, Or.inl ⟨rfl, x, hx, rfl, rfl⟩⟩
    | error e => exact Or.inr (Or.inl ⟨e, Or.inl ⟨rfl, hx⟩⟩)
  · cases hx : d.controller with
    | ok x =>
      cases ht : x.Spec.Template with
      | none => exact Or.inr (Or.inr ⟨rfl, x, hx, ht⟩)
      | some t => exact Or.inl ⟨_, _, Or.inr (Or.inl ⟨rfl, x, t, hx, rfl, ht, rfl⟩)⟩
    | error e => exact Or.inr (Or.inl ⟨e, Or.inr (Or.inl ⟨rfl, hx⟩)⟩)
  · cases hx : d.rep with
    | ok x => exact Or.inl ⟨_, _, Or.inr (Or.inr ⟨rfl, x, hx, rfl, rfl⟩)⟩
    | error e => exact Or.inr (Or.inl ⟨e, Or.inr (Or.inr ⟨rfl, hx⟩)⟩)

theorem decodesTo_unique (d : Document) (k ns ns2 : String) (L L2 : StringMap)
    (h : d.DecodesTo k ns L) (h2 : d.DecodesTo k ns2 L2) : ns = ns2 ∧ L = L2 := by
  have hd := kinds_distinct
  rcases h with ⟨rfl, x, hx, rfl, rfl⟩ | ⟨rfl, x, t, hx, rfl, ht, rfl⟩ |
      ⟨rfl, x, hx, rfl, rfl⟩
  · rcases h2 with ⟨_, y, hy, rfl, rfl⟩ | ⟨hk, _⟩ | ⟨hk, _⟩
    · rw [hx] at hy; injection hy with hy; subst hy; exact ⟨rfl, rfl⟩
    · exact absurd hk hd.1
    · exact absurd hk hd.2.1
  · rcases h2 with ⟨hk, _⟩ | ⟨_, y, u, hy, rfl, hu, rfl⟩ | ⟨hk, _⟩
    · exact absurd hk hd.1.symm
    · rw [hx] at hy; injection hy with hy; subst hy
      rw [ht] at hu; injection hu with hu; subst hu
      exact ⟨rfl, rfl⟩
    · exact absurd hk hd.2.2
  · rcases h2 with ⟨hk, _⟩ | ⟨hk, _⟩ | ⟨_, y, hy, rfl, rfl⟩
    · exact absurd hk hd.2.1.symm
    · exact absurd hk hd.2.2.symm
    · rw [hx] at hy; injection hy with hy; subst hy; exact ⟨rfl, rfl⟩

theorem decodesTo_not_fails (d : Document) (k ns : String) (L : StringMap) (e : DecodeError)
    (h : d.DecodesTo k ns L) (h2 : d.TypedFails k e) : False := by
  have hd := kinds_distinct
  rcases h with ⟨rfl, x, hx, _⟩ | ⟨rfl, x, t, hx, _⟩ | ⟨rfl, x, hx, _⟩
  · rcases h2 with ⟨_, hy⟩ | ⟨hk, _⟩ | ⟨hk, _⟩
    · rw [hx] at hy; injection hy
    · exact absurd hk hd.1
    · exact absurd hk hd.2.1
  · rcases h2 with ⟨hk, _⟩ | ⟨_, hy⟩ | ⟨hk, _⟩
    · exact absurd hk hd.1.symm
    · rw [hx] at hy; injection hy
    · exact absurd hk hd.2.2
  · rcases h2 with ⟨hk, _⟩ | ⟨hk, _⟩ | ⟨_, hy⟩
    · exact absurd hk hd.2.1.symm
    · exact absurd hk hd.2.2.symm
    · rw [hx] at hy; injection hy

theorem decodesTo_not_nilTemplate (d : Document) (k ns : String) (L : StringMap)
    (h : d.DecodesTo k ns L) (h2 : d.NilTemplate k) : False := by
  have hd := kinds_distinct
  obtain ⟨hk, y, hy, hn⟩ := h2
  rcases h with ⟨rfl, _⟩ | ⟨_, x, t, hx, _, ht, _⟩ | ⟨rfl, _⟩
  · exact absurd hk hd.1
  · rw [hx] at hy; injection hy with hy; subst hy
    rw [ht] at hn; injection hn
  · exact absurd hk hd.2.2.symm

theorem labelsLoop_prefix (ro : RangeOrder) (pre rest : List Document)
    (kpre krest : List String) (gs : List (List String)) (i : Nat)
    (acc : List (List String)) (h : GroupsOf ro i pre kpre gs) :
    labelsLoop ro (kpre ++ krest) (pre ++ rest) i acc =
      labelsLoop ro krest rest (i + pre.length) (acc ++ gs) := by
  induction h generalizing acc with
  | nil i => simp
  | cons hd _ ih =>
    rw [List.cons_append, List.cons_append, labelsLoop_ok ro _ _ _ _ _ _ _ _ hd, ih]
    simp [Nat.add_assoc, Nat.add_comm 1]

/-- After a successful scan, the second pass either builds a group for every
document, or stops at the first document whose typed decode fails, or panics at the
first ReplicationController whose template pointer is nil. -/
theorem labelsLoop_cases (ro : RangeOrder) (ds : List Document) (ks : List String)
    (i : Nat) (acc : List (List String)) (h : List.Forall₂ Document.Accepted ds ks) :
    (∃ gs, GroupsOf ro i ds ks gs ∧
      labelsLoop ro ks ds i acc = Outcome.returned (some (acc ++ gs)) none) ∨
    (∃ pre d post kpre k kpost gs e, ds = pre ++ d :: post ∧ ks = kpre ++ k :: kpost ∧
      List.Forall₂ Document.Accepted pre kpre ∧ d.Accepted k ∧
      GroupsOf ro i pre kpre gs ∧ d.TypedFails k e ∧
      labelsLoop ro ks ds i acc = Outcome.returned none (some (Error.decode e))) ∨
    (∃ pre d post kpre k kpost gs, ds = pre ++ d :: post ∧ ks = kpre ++ k :: kpost ∧
      List.Forall₂ Document.Accepted pre kpre ∧ d.Accepted k ∧
      GroupsOf ro i pre kpre gs ∧ d.NilTemplate k ∧
      labelsLoop ro ks ds i acc = Outcome.panicked) := by
  induction h generalizing i acc with
  | nil => exact Or.inl ⟨[], GroupsOf.nil i, by simp [labelsLoop]⟩
  | @cons d k ds ks hd _ ih =>
    rcases typed_total d k ((accepted_iff d k).1 hd).2 with ⟨ns, L, hok⟩ | ⟨e, he⟩ | hn
    · rw [labelsLoop_ok ro k ks d ds i acc ns L hok]
      rcases ih (i + 1) (acc ++ [labelGroup ro i ns L]) with ⟨gs, hgs, hr⟩ |
          ⟨pre, x, post, kpre, kx, kpost, gs, e, hds, hks, hap, hax, hgs, hf, hr⟩ |
          ⟨pre, x, post, kpre, kx, kpost, gs, hds, hks, hap, hax, hgs, hf, hr⟩
      · exact Or.inl ⟨labelGroup ro i ns L :: gs, GroupsOf.cons hok hgs, by simpa using hr⟩
      · exact Or.inr (Or.inl ⟨d :: pre, x, post, k :: kpre, kx, kpost,
          labelGroup ro i ns L :: gs, e, by simp [hds], by simp [hks],
          List.Forall₂.cons hd hap, hax, GroupsOf.cons hok hgs, hf, hr⟩)
      · exact Or.inr (Or.inr ⟨d :: pre, x, post, k :: kpre, kx, kpost,
          labelGroup ro i ns L :: gs, by simp [hds], by simp [hks],
          List.Forall₂.cons hd hap, hax, GroupsOf.cons hok hgs, hf, hr⟩)
    · exact Or.inr (Or.inl ⟨[], d, ds, [], k, ks, [], e, rfl, rfl, List.Forall₂.nil, hd,
        GroupsOf.nil i, he, labelsLoop_err ro k ks d ds i acc e he⟩)
    · exact Or.inr (Or.inr ⟨[], d, ds, [], k, ks, [], rfl, rfl, List.Forall₂.nil, hd,
        GroupsOf.nil i, hn, labelsLoop_nilTemplate ro k ks d ds i acc hn⟩)

theorem groupsOf_length (ro : RangeOrder) (i : Nat) (ds : List Document) (ks : List String)
    (gs : List (List String)) (h : GroupsOf ro i ds ks gs) :
    gs.length = ds.length ∧ ks.length = ds.length := by
  induction h with
  | nil i => simp
  | cons _ _ ih => simp [ih.1, ih.2]

theorem groupsOf_get (ro : RangeOrder) (i : Nat) (ds : List Document) (ks : List String)
    (gs : List (List String)) (h : GroupsOf ro i ds ks gs) (j : Nat) (d : Document)
    (k : String) (hd : ds[j]? = some d) (hk : ks[j]? = some k) :
    ∃ ns L, d.DecodesTo k ns L ∧ gs[j]? = some (labelGroup ro (i + j) ns L) := by
  induction h generalizing j with
  | nil i => simp at hd
  | cons hx _ ih =>
    cases j with
    | zero =>
      simp only [List.getElem?_cons_zero, Option.some.injEq] at hd hk
      subst hd; subst hk
      exact ⟨_, _, hx, by simp⟩
    | succ j =>
      simp only [List.getElem?_cons_succ] at hd hk
      obtain ⟨ns, L, h1, h2⟩ := ih j hd hk
      exact ⟨ns, L, h1, by simpa [Nat.add_assoc, Nat.add_comm 1] using h2⟩

/-! ## Lemmas on the entry point -/

theorem getKindsFromYaml_open (fs : FileSystem) (file : String) (ds : List Document)
    (h : fs file = Except.ok ds) : getKindsFromYaml fs file = getKindsLoop ds [] := by
  simp [getKindsFromYaml, h]

theorem GetLabelsFromYaml_scanned (ro : RangeOrder) (fs : FileSystem) (file : String)
    (ds : List Document) (ks : List String) (h : fs file = Except.ok ds)
    (hs : getKindsLoop ds [] = Outcome.returned (some ks) none) :
    GetLabelsFromYaml ro fs file = labelsLoop ro ks ds 0 [] := by
  simp [GetLabelsFromYaml, getKindsFromYaml, h, hs]

theorem GetLabelsFromYaml_scanError (ro : RangeOrder) (fs : FileSystem) (file : String)
    (v : Option (List String)) (e : Error)
    (hs : getKindsFromYaml fs file = Outcome.returned v (some e)) :
    GetLabelsFromYaml ro fs file = Outcome.returned none (some e) := by
  simp [GetLabelsFromYaml, hs]

theorem GetLabelsFromYaml_scanPanic (ro : RangeOrder) (fs : FileSystem) (file : String)
    (hs : getKindsFromYaml fs file = Outcome.panicked) :
    GetLabelsFromYaml ro fs file = Outcome.panicked := by
  simp [GetLabelsFromYaml, hs]

theorem accepted_split (pre : List Document) (d : Document) (post : List Document)
    (ks : List String) (h : List.Forall₂ Document.Accepted (pre ++ d :: post) ks) :
    ∃ kpre k kpost, ks = kpre ++ k :: kpost ∧ List.Forall₂ Document.Accepted pre kpre ∧
      d.Accepted k ∧ List.Forall₂ Document.Accepted post kpost := by
  induction pre generalizing ks with
  | nil =>
    cases h with
    | cons hd ht => exact ⟨[], _, _, rfl, List.Forall₂.nil, hd, ht⟩
  | cons p pre ih =>
    cases h with
    | cons hd ht =>
      obtain ⟨kpre, k, kpost, hks, h1, h2, h3⟩ := ih _ ht
      exact ⟨_ :: kpre, k, kpost, by simp [hks], List.Forall₂.cons hd h1, h2, h3⟩

theorem accepted_of_forall (l : List Document) (h : ∀ p ∈ l, ∃ k, p.Accepted k) :
    ∃ ks, List.Forall₂ Document.Accepted l ks := by
  induction l with
  | nil => exact ⟨[], List.Forall₂.nil⟩
  | cons p l ih =>
    obtain ⟨k, hk⟩ := h p (List.mem_cons_self p l)
    obtain ⟨ks, hks⟩ := ih (fun q hq => h q (List.mem_cons_of_mem p hq))
    exact ⟨k :: ks, List.Forall₂.cons hk hks⟩

theorem groupsOf_of_forall (ro : RangeOrder) (i : Nat) (l : List Document) (ks : List String)
    (h : List.Forall₂ Document.Accepted l ks)
    (ht : ∀ p ∈ l, ∀ k, p.HasKind k → ∃ ns L, p.DecodesTo k ns L) :
    ∃ gs, GroupsOf ro i l ks gs := by
  induction h generalizing i with
  | nil => exact ⟨[], GroupsOf.nil i⟩
  | @cons p k l ks hp _ ih =>
    obtain ⟨ns, L, hL⟩ := ht p (List.mem_cons_self p l) k ((accepted_iff p k).1 hp).1
    obtain ⟨gs, hgs⟩ := ih (i + 1) (fun q hq => ht q (List.mem_cons_of_mem p hq))
    exact ⟨_, GroupsOf.cons hL hgs⟩

theorem groupsOf_forall (ro : RangeOrder) (i : Nat) (l : List Document) (ks : List String)
    (gs : List (List String)) (h : GroupsOf ro i l ks gs)
    (ha : List.Forall₂ Document.Accepted l ks) :
    ∀ p ∈ l, ∀ k, p.HasKind k → ∃ ns L, p.DecodesTo k ns L := by
  induction h with
  | nil i => intro p hp; simp at hp
  | @cons i d kd ns L ds ks gs hd _ ih =>
    cases ha with
    | cons had hat =>
      intro p hp k hk
      rcases List.mem_cons.1 hp with rfl | hp
      · have := hasKind_unique p k kd hk ((accepted_iff p kd).1 had).1
        subst this
        exact ⟨ns, L, hd⟩
      · exact ih hat p hp k hk

/-- A call that returns a result without error has accepted every document in the
scan and built a group for each of them. -/
theorem GetLabelsFromYaml_success (ro : RangeOrder) (fs : FileSystem) (file : String)
    (ds : List Document) (groups : List (List String)) (hfile : fs file = Except.ok ds)
    (hres : GetLabelsFromYaml ro fs file = Outcome.returned (some groups) none) :
    ∃ ks, List.Forall₂ Document.Accepted ds ks ∧ GroupsOf ro 0 ds ks groups := by
  rcases getKindsLoop_cases ds [] with ⟨ks, hks, hr⟩ | ⟨pre, x, post, ks, e, _, _, _, hr⟩ |
      ⟨pre, x, post, ks, w, _, _, _, _, hr⟩
  · rw [GetLabelsFromYaml_scanned ro fs file ds ks hfile (by simpa using hr)] at hres
    rcases labelsLoop_cases ro ds ks 0 [] hks with ⟨gs, hgs, hl⟩ |
        ⟨_, _, _, _, _, _, _, e, _, _, _, _, _, _, hl⟩ |
        ⟨_, _, _, _, _, _, _, _, _, _, _, _, _, hl⟩
    · rw [hl] at hres
      simp only [List.nil_append, Outcome.returned.injEq, Option.some.injEq, and_true] at hres
      subst hres
      exact ⟨ks, hks, hgs⟩
    · rw [hl] at hres; simp at hres
    · rw [hl] at hres; simp at hres
  · rw [GetLabelsFromYaml_scanError ro fs file none e
      (by rw [getKindsFromYaml_open fs file ds hfile]; exact hr)] at hres
    simp at hres
  · rw [GetLabelsFromYaml_scanPanic ro fs file
      (by rw [getKindsFromYaml_open fs file ds hfile]; exact hr)] at hres
    simp at hres

/-- The group at index `i` of a successful call. -/
theorem GetLabelsFromYaml_group (ro : RangeOrder) (fs : FileSystem) (file : String)
    (ds : List Document) (groups : List (List String)) (i : Nat) (d : Document)
    (k ns : String) (L : StringMap) (hfile : fs file = Except.ok ds)
    (hres : GetLabelsFromYaml ro fs file = Outcome.returned (some groups) none)
    (hd : ds[i]? = some d) (hk : d.HasKind k) (hL : d.DecodesTo k ns L) :
    groups[i]? = some (labelGroup ro i ns L) := by
  obtain ⟨ks, hks, hgs⟩ := GetLabelsFromYaml_success ro fs file ds groups hfile hres
  obtain ⟨k2, hk2, hacc⟩ := accepted_get ds ks hks i d hd
  have hkk : k = k2 := hasKind_unique d k k2 hk ((accepted_iff d k2).1 hacc).1
  subst hkk
  obtain ⟨ns2, L2, hL2, hg⟩ := groupsOf_get ro 0 ds ks groups hgs i d k hd hk2
  obtain ⟨rfl, rfl⟩ := decodesTo_unique d k ns ns2 L L2 hL hL2
  simpa using hg

theorem generate_eq (k v : String) : GenerateK8sLabelString k v = "k8s:" ++ k ++ "=" ++ v := rfl

theorem namespaceLabel_eq (ns : String) :
    GenerateK8sLabelString K8sNamespaceLabel ns = "k8s:io.kubernetes.pod.namespace=" ++ ns := by
  have h : "k8s:" ++ K8sNamespaceLabel ++ "=" = "k8s:io.kubernetes.pod.namespace=" := by decide
  rw [generate_eq, h]

/-! ## The claims -/

/-- C1: for a document of a supported kind `k` whose typed decode yields the
pod-template label map `L`, the label group that a successful call of
`GetLabelsFromYaml` holds at the index of the document consists of a first element
followed by exactly the strings `k8s:<key>=<value>` of the entries of `L`, as multisets
(the order is that of the map iteration). -/
theorem C1_group_tail_is_label_strings (ro : RangeOrder) (fs : FileSystem) (file : String)
    (ds : List Document) (groups : List (List String)) (i : Nat) (d : Document)
    (k ns : String) (L : StringMap) (hfile : fs file = Except.ok ds)
    (hres : GetLabelsFromYaml ro fs file = Outcome.returned (some groups) none)
    (hd : ds[i]? = some d) (hk : d.HasKind k) (hL : d.DecodesTo k ns L) :
    ∃ first rest, groups[i]? = some (first :: rest) ∧
      (rest : Multiset String) =
        Multiset.map (fun kv => "k8s:" ++ kv.1 ++ "=" ++ kv.2) (L : Multiset (String × String)) := by
  refine ⟨_, _, GetLabelsFromYaml_group ro fs file ds groups i d k ns L hfile hres hd hk hL, ?_⟩
  rw [Multiset.map_coe, Multiset.coe_eq_coe]
  exact (ro.perm i L).map _

/-- Witness for C1 (scenario 1): one Deployment, no namespace, labels `app: foo`. -/
theorem C1_witness :
    GetLabelsFromYaml RangeOrder.listed (fsOf [mkDoc Deployment "" [("app", "foo")]]) "f" =
        Outcome.returned (some [["k8s:io.kubernetes.pod.namespace=default", "k8s:app=foo"]]) none ∧
      ∃ first rest,
        [["k8s:io.kubernetes.pod.namespace=default", "k8s:app=foo"]][0]? = some (first :: rest) ∧
        (rest : Multiset String) =
          Multiset.map (fun kv => "k8s:" ++ kv.1 ++ "=" ++ kv.2)
            (([("app", "foo")] : StringMap) : Multiset (String × String)) :=
  ⟨by decide,
    C1_group_tail_is_label_strings RangeOrder.listed
      (fsOf [mkDoc Deployment "" [("app", "foo")]]) "f"
      [mkDoc Deployment "" [("app", "foo")]]
      [["k8s:io.kubernetes.pod.namespace=default", "k8s:app=foo"]] 0
      (mkDoc Deployment "" [("app", "foo")]) Deployment "" [("app", "foo")]
      rfl (by decide) rfl ⟨_, rfl, rfl⟩ (Or.inl ⟨rfl, _, rfl, rfl, rfl⟩)⟩

/-- C2: for a document of a supported kind whose typed decode yields namespace `ns`,
the first element of its label group is the namespace label of the effective
namespace: `ns` itself when it is non-empty, `default` when it is empty or absent. -/
theorem C2_first_is_namespace_label (ro : RangeOrder) (fs : FileSystem) (file : String)
    (ds : List Document) (groups : List (List String)) (i : Nat) (d : Document)
    (k ns : String) (L : StringMap) (hfile : fs file = Except.ok ds)
    (hres : GetLabelsFromYaml ro fs file = Outcome.returned (some groups) none)
    (hd : ds[i]? = some d) (hk : d.HasKind k) (hL : d.DecodesTo k ns L) :
    ∃ first rest, groups[i]? = some (first :: rest) ∧
      first = GenerateK8sLabelString K8sNamespaceLabel (if ns = "" then DefaultNamespace else ns) ∧
      (ns ≠ "" → first = "k8s:io.kubernetes.pod.namespace=" ++ ns) ∧
      (ns = "" → first = "k8s:io.kubernetes.pod.namespace=default") := by
  refine ⟨_, _, GetLabelsFromYaml_group ro fs file ds groups i d k ns L hfile hres hd hk hL,
    ?_, ?_, ?_⟩
  · by_cases h : ns = "" <;> simp [h]
  · intro h
    simp [h, namespaceLabel_eq]
  · intro h
    rw [namespaceLabel_eq]
    subst h
    decide

/-- Witness for C2 (scenario 2): one ReplicationController, namespace `prod`, no labels. -/
theorem C2_witness :
    GetLabelsFromYaml RangeOrder.listed (fsOf [mkDoc ReplicationController "prod" []]) "f" =
        Outcome.returned (some [["k8s:io.kubernetes.pod.namespace=prod"]]) none ∧
      ∃ first rest, [["k8s:io.kubernetes.pod.namespace=prod"]][0]? = some (first :: rest) ∧
        first = GenerateK8sLabelString K8sNamespaceLabel
          (if "prod" = "" then DefaultNamespace else "prod") ∧
        ("prod" ≠ "" → first = "k8s:io.kubernetes.pod.namespace=" ++ "prod") ∧
        ("prod" = "" → first = "k8s:io.kubernetes.pod.namespace=default") :=
  ⟨by decide,
    C2_first_is_namespace_label RangeOrder.listed
      (fsOf [mkDoc ReplicationController "prod" []]) "f"
      [mkDoc ReplicationController "prod" []]
      [["k8s:io.kubernetes.pod.namespace=prod"]] 0
      (mkDoc ReplicationController "prod" []) ReplicationController "prod" []
      rfl (by decide) rfl ⟨_, rfl, rfl⟩ (Or.inr (Or.inl ⟨rfl, _, _, rfl, rfl, rfl, rfl⟩))⟩

/-- C3, the claim as stated fails: on a file whose single document is a Deployment
with an ill-typed `spec`, kind scanning succeeds on one document, yet
`GetLabelsFromYaml` returns the nil sequence with the decode error, not a sequence of
length one. -/
theorem C3_counterexample :
    getKindsFromYaml (fsOf [badSpecDoc]) "f" = Outcome.returned (some ["Deployment"]) none ∧
      GetLabelsFromYaml RangeOrder.listed (fsOf [badSpecDoc]) "f" =
        Outcome.returned none (some (Error.decode sampleTypeError)) ∧
      ¬ ∃ groups err, GetLabelsFromYaml RangeOrder.listed (fsOf [badSpecDoc]) "f" =
          Outcome.returned (some groups) err ∧ groups.length = [badSpecDoc].length := by
  have h : GetLabelsFromYaml RangeOrder.listed (fsOf [badSpecDoc]) "f" =
      Outcome.returned none (some (Error.decode sampleTypeError)) := by decide
  refine ⟨by decide, h, ?_⟩
  rintro ⟨groups, err, hg, _⟩
  rw [h] at hg
  simp at hg

/-- C3, amended: when kind scanning succeeds and the typed decode of every document
succeeds with a pod template to read the labels from (for a ReplicationController
`spec.template` is present), `GetLabelsFromYaml` returns without error a sequence with
one group per document of the file, and the group of document `i` has length one plus
the number of its pod-template label entries. -/
theorem C3_lengths (ro : RangeOrder) (fs : FileSystem) (file : String)
    (ds : List Document) (ks : List String) (hfile : fs file = Except.ok ds)
    (hscan : getKindsFromYaml fs file = Outcome.returned (some ks) none)
    (htyped : ∀ d ∈ ds, ∀ k, d.HasKind k → ∃ ns L, d.DecodesTo k ns L) :
    ∃ groups, GetLabelsFromYaml ro fs file = Outcome.returned (some groups) none ∧
      groups.length = ds.length ∧
      ∀ (i : Nat) (d : Document) (k ns : String) (L : StringMap), ds[i]? = some d → d.HasKind k → d.DecodesTo k ns L →
        ∃ g, groups[i]? = some g ∧ g.length = 1 + L.length := by
  rw [getKindsFromYaml_open fs file ds hfile] at hscan
  have hacc : List.Forall₂ Document.Accepted ds ks := by
    rcases getKindsLoop_cases ds [] with ⟨ks2, hks, hr⟩ | ⟨_, _, _, _, e, _, _, _, hr⟩ |
        ⟨_, _, _, _, _, _, _, _, _, hr⟩
    · rw [hr] at hscan
      simp only [List.nil_append, Outcome.returned.injEq, Option.some.injEq, and_true] at hscan
      subst hscan
      exact hks
    · rw [hr] at hscan; simp at hscan
    · rw [hr] at hscan; simp at hscan
  obtain ⟨gs, hgs⟩ := groupsOf_of_forall ro 0 ds ks hacc htyped
  have hloop := labelsLoop_prefix ro ds [] ks [] gs 0 [] hgs
  simp only [List.append_nil, List.nil_append, Nat.zero_add] at hloop
  have hres : GetLabelsFromYaml ro fs file = Outcome.returned (some gs) none := by
    rw [GetLabelsFromYaml_scanned ro fs file ds ks hfile hscan, hloop]
    simp [labelsLoop]
  refine ⟨gs, hres, (groupsOf_length ro 0 ds ks gs hgs).1, ?_⟩
  intro i d k ns L hd hk hL
  refine ⟨_, GetLabelsFromYaml_group ro fs file ds gs i d k ns L hfile hres hd hk hL, ?_⟩
  simp [labelGroup, (ro.perm i L).length_eq, Nat.add_comm]

/-- Witness for C3: a Deployment with two labels followed by a ReplicationController
whose template carries one label. -/
theorem C3_witness :
    ∃ groups, GetLabelsFromYaml RangeOrder.reversed
        (fsOf [mkDoc Deployment "" [("app", "foo"), ("tier", "web")],
          mkDoc ReplicationController "prod" [("app", "db")]])
        "f" = Outcome.returned (some groups) none ∧
      groups.length =
        [mkDoc Deployment "" [("app", "foo"), ("tier", "web")],
          mkDoc ReplicationController "prod" [("app", "db")]].length ∧
      ∀ (i : Nat) (d : Document) (k ns : String) (L : StringMap),
        [mkDoc Deployment "" [("app", "foo"), ("tier", "web")],
          mkDoc ReplicationController "prod" [("app", "db")]][i]? =
          some d → d.HasKind k → d.DecodesTo k ns L →
        ∃ g, groups[i]? = some g ∧ g.length = 1 + L.length :=
  C3_lengths RangeOrder.reversed
    (fsOf [mkDoc Deployment "" [("app", "foo"), ("tier", "web")],
      mkDoc ReplicationController "prod" [("app", "db")]]) "f"
    [mkDoc Deployment "" [("app", "foo"), ("tier", "web")],
      mkDoc ReplicationController "prod" [("app", "db")]]
    [Deployment, ReplicationController] rfl (by decide)
    (by
      intro d hd k hk
      simp only [List.mem_cons, List.mem_singleton, List.not_mem_nil, or_false] at hd
      rcases hd with rfl | rfl
      · have := hasKind_unique _ k Deployment hk ⟨_, rfl, rfl⟩
        subst this
        exact ⟨_, _, Or.inl ⟨rfl, _, rfl, rfl, rfl⟩⟩
      · have := hasKind_unique _ k ReplicationController hk ⟨_, rfl, rfl⟩
        subst this
        exact ⟨_, _, Or.inr (Or.inl ⟨rfl, _, _, rfl, rfl, rfl, rfl⟩)⟩)

/-- C4: `parseKind` returns `(k, nil)` exactly when the mapping has a `kind` entry that is
the string `k` and `k` is one of the three supported kinds; a missing `kind` and a
`kind` that is not a string give a malformed-manifest error; a string outside the
three gives the unsupported-kind error, whose message names the three kinds; on every
failure the returned string is empty. -/
theorem C4_parseKind_classification (m : List (String × Value)) :
    (∀ k, parseKind m = (k, none) ↔
      m.lookup "kind" = some (Value.string k) ∧
        (k = "Deployment" ∨ k = "ReplicationController" ∨ k = "ReplicaSet")) ∧
    (m.lookup "kind" = none → parseKind m = ("", some (Error.errorf noKindMsg))) ∧
    (∀ v, m.lookup "kind" = some v → (∀ s, v ≠ Value.string s) →
      parseKind m = ("", some (Error.errorf notStringMsg))) ∧
    (∀ s, m.lookup "kind" = some (Value.string s) →
      ¬ (s = "Deployment" ∨ s = "ReplicationController" ∨ s = "ReplicaSet") →
      parseKind m = ("", some (Error.errorf unsupportedMsg))) ∧
    (Error.errorf noKindMsg).IsMalformedManifest ∧
    (Error.errorf notStringMsg).IsMalformedManifest ∧
    ¬ (Error.errorf noKindMsg).IsUnsupportedKind ∧
    ¬ (Error.errorf notStringMsg).IsUnsupportedKind ∧
    (Error.errorf unsupportedMsg).IsUnsupportedKind ∧
    ¬ (Error.errorf unsupportedMsg).IsMalformedManifest ∧
    unsupportedMsg =
      "Deployment, ReplicationController, and ReplicaSet are the only supported types at this time" ∧
    (∀ s e, parseKind m = (s, some e) → s = "") ∧
    (∃ s e, parseKind m = (s, e) ∧ (e = none ∨ s = "")) := by
  refine ⟨fun k => parseKind_ok_iff m k, parseKind_missing m, parseKind_notString m,
    fun s h hs => parseKind_unsupported m s h hs, by decide, by decide, by decide, by decide,
    by decide, by decide, by decide, parseKind_err_fst m, ?_⟩
  cases hp : parseKind m with
  | mk s e =>
    cases e with
    | none => exact ⟨s, none, rfl, Or.inl rfl⟩
    | some e => exact ⟨s, some e, rfl, Or.inr (parseKind_err_fst m s e hp)⟩

/-- The entry point on a file whose first document to fail in the scan fails with `e`. -/
theorem GetLabelsFromYaml_scanFails (ro : RangeOrder) (fs : FileSystem) (file : String)
    (pre : List Document) (d : Document) (post : List Document) (e : Error)
    (hfile : fs file = Except.ok (pre ++ d :: post))
    (hpre : ∀ p ∈ pre, ∃ k, p.Accepted k) (hd : d.ScanFails e) :
    getKindsFromYaml fs file = Outcome.returned none (some e) ∧
      GetLabelsFromYaml ro fs file = Outcome.returned none (some e) := by
  obtain ⟨ks, hks⟩ := accepted_of_forall pre hpre
  have hscan : getKindsFromYaml fs file = Outcome.returned none (some e) := by
    rw [getKindsFromYaml_open fs file _ hfile, getKindsLoop_prefix pre (d :: post) ks [] hks,
      getKindsLoop_fail d post _ e hd]
  exact ⟨hscan, GetLabelsFromYaml_scanError ro fs file none e hscan⟩

/-- The entry point on a file that passes the scan and whose first document to fail in
the second pass fails with `e`. -/
theorem GetLabelsFromYaml_typedFails (ro : RangeOrder) (fs : FileSystem) (file : String)
    (pre : List Document) (d : Document) (post : List Document) (k : String)
    (e : DecodeError) (hfile : fs file = Except.ok (pre ++ d :: post))
    (hall : ∀ p ∈ pre ++ d :: post, ∃ k, p.Accepted k)
    (hpre : ∀ p ∈ pre, ∀ k, p.HasKind k → ∃ ns L, p.DecodesTo k ns L)
    (hk : d.HasKind k) (hd : d.TypedFails k e) :
    ∃ ks built, getKindsFromYaml fs file = Outcome.returned (some ks) none ∧
      built.length = pre.length ∧
      labelsLoop ro ks (pre ++ d :: post) 0 [] =
        labelsLoop ro (ks.drop pre.length) (d :: post) pre.length built ∧
      GetLabelsFromYaml ro fs file = Outcome.returned none (some (Error.decode e)) := by
  obtain ⟨ks, hks⟩ := accepted_of_forall _ hall
  obtain ⟨kpre, k2, kpost, rfl, h1, h2, _⟩ := accepted_split pre d post ks hks
  have hkk : k = k2 := hasKind_unique d k k2 hk ((accepted_iff d k2).1 h2).1
  subst hkk
  have hscan : getKindsLoop (pre ++ d :: post) [] =
      Outcome.returned (some (kpre ++ k :: kpost)) none := by
    have := getKindsLoop_prefix (pre ++ d :: post) [] (kpre ++ k :: kpost) [] hks
    simpa [getKindsLoop] using this
  obtain ⟨gs, hgs⟩ := groupsOf_of_forall ro 0 pre kpre h1 hpre
  have hlen := groupsOf_length ro 0 pre kpre gs hgs
  have hloop := labelsLoop_prefix ro pre (d :: post) kpre (k :: kpost) gs 0 [] hgs
  simp only [List.nil_append, Nat.zero_add] at hloop
  refine ⟨kpre ++ k :: kpost, gs, ?_, hlen.1, ?_, ?_⟩
  · rw [getKindsFromYaml_open fs file _ hfile, hscan]
  · rw [hloop, ← hlen.2, List.drop_left]
  · rw [GetLabelsFromYaml_scanned ro fs file _ _ hfile hscan, hloop,
      labelsLoop_err ro k kpost d post _ _ e hd]

theorem hasKind_scanFails (d : Document) (s : String) (h : d.HasKind s) (hs : ¬ Supported s) :
    d.ScanFails (Error.errorf unsupportedMsg) := by
  obtain ⟨m, hm, hl⟩ := h
  exact Or.inr ⟨m, "", hm, parseKind_unsupported m s hl hs⟩

theorem noKind_scanFails (d : Document) (h : d.NoKind) :
    d.ScanFails (Error.errorf noKindMsg) := by
  obtain ⟨m, hm, hl⟩ := h
  exact Or.inr ⟨m, "", hm, parseKind_missing m hl⟩

theorem accepted_of_supported (pre : List Document)
    (hpre : ∀ p ∈ pre, ∃ k, p.HasKind k ∧ Supported k) : ∀ p ∈ pre, ∃ k, p.Accepted k := by
  intro p hp
  obtain ⟨k, hk⟩ := hpre p hp
  exact ⟨k, (accepted_iff p k).2 hk⟩

/-- C5, the claim as stated fails: the file holds a document whose kind is the
unsupported string `StatefulSet`, but an earlier document has no `kind`, and the call
fails with the malformed-manifest error instead of the unsupported-kind error. -/
theorem C5_counterexample :
    (mkDoc "StatefulSet" "" []) ∈ [noKindDoc, mkDoc "StatefulSet" "" []] ∧
      (mkDoc "StatefulSet" "" []).HasKind "StatefulSet" ∧ ¬ Supported "StatefulSet" ∧
      GetLabelsFromYaml RangeOrder.listed (fsOf [noKindDoc, mkDoc "StatefulSet" "" []]) "f" =
        Outcome.returned none (some (Error.errorf noKindMsg)) ∧
      ¬ (Error.errorf noKindMsg).IsUnsupportedKind :=
  ⟨by simp, ⟨_, rfl, rfl⟩, by decide, by decide, by decide⟩

/-- C5, amended: when a document whose `kind` is a string outside the three supported
kinds is preceded only by documents that are mappings with a supported kind,
`GetLabelsFromYaml` fails with the unsupported-kind error and returns the nil
sequence, whatever follows the document. -/
theorem C5_unsupported_kind (ro : RangeOrder) (fs : FileSystem) (file : String)
    (pre : List Document) (d : Document) (post : List Document) (s : String)
    (hfile : fs file = Except.ok (pre ++ d :: post))
    (hpre : ∀ p ∈ pre, ∃ k, p.HasKind k ∧ Supported k)
    (hd : d.HasKind s) (hs : ¬ Supported s) :
    GetLabelsFromYaml ro fs file = Outcome.returned none (some (Error.errorf unsupportedMsg)) ∧
      (Error.errorf unsupportedMsg).IsUnsupportedKind :=
  ⟨(GetLabelsFromYaml_scanFails ro fs file pre d post _ hfile (accepted_of_supported pre hpre)
    (hasKind_scanFails d s hd hs)).2, rfl⟩

/-- Witness for C5 (scenario 3): kinds `Deployment` then `StatefulSet`. -/
theorem C5_witness :
    GetLabelsFromYaml RangeOrder.listed
        (fsOf [mkDoc Deployment "" [("app", "foo")], mkDoc "StatefulSet" "" []]) "f" =
      Outcome.returned none (some (Error.errorf unsupportedMsg)) ∧
      (Error.errorf unsupportedMsg).IsUnsupportedKind :=
  C5_unsupported_kind RangeOrder.listed
    (fsOf [mkDoc Deployment "" [("app", "foo")], mkDoc "StatefulSet" "" []]) "f"
    [mkDoc Deployment "" [("app", "foo")]] (mkDoc "StatefulSet" "" []) [] "StatefulSet" rfl
    (by
      intro p hp
      simp only [List.mem_singleton] at hp
      subst hp
      exact ⟨Deployment, ⟨_, rfl, rfl⟩, Or.inl rfl⟩)
    ⟨_, rfl, rfl⟩ (by decide)

/-- C6, the claim as stated fails: the file holds a document without a `kind` field,
but an earlier document has the unsupported kind `StatefulSet`, and the call fails with
the unsupported-kind error, which is not a malformed-manifest error. -/
theorem C6_counterexample :
    noKindDoc ∈ [mkDoc "StatefulSet" "" [], noKindDoc] ∧ noKindDoc.NoKind ∧
      GetLabelsFromYaml RangeOrder.listed (fsOf [mkDoc "StatefulSet" "" [], noKindDoc]) "f" =
        Outcome.returned none (some (Error.errorf unsupportedMsg)) ∧
      ¬ (Error.errorf unsupportedMsg).IsMalformedManifest :=
  ⟨by simp, ⟨_, rfl, rfl⟩, by decide, by decide⟩

/-- C6, amended: when a document without a `kind` field is preceded only by documents
that are mappings with a supported kind, `GetLabelsFromYaml` fails with the
malformed-manifest error (and not with the unsupported-kind error) and returns the nil
sequence, whatever follows the document. -/
theorem C6_missing_kind (ro : RangeOrder) (fs : FileSystem) (file : String)
    (pre : List Document) (d : Document) (post : List Document)
    (hfile : fs file = Except.ok (pre ++ d :: post))
    (hpre : ∀ p ∈ pre, ∃ k, p.HasKind k ∧ Supported k) (hd : d.NoKind) :
    GetLabelsFromYaml ro fs file = Outcome.returned none (some (Error.errorf noKindMsg)) ∧
      (Error.errorf noKindMsg).IsMalformedManifest ∧
      ¬ (Error.errorf noKindMsg).IsUnsupportedKind :=
  ⟨(GetLabelsFromYaml_scanFails ro fs file pre d post _ hfile (accepted_of_supported pre hpre)
    (noKind_scanFails d hd)).2, by decide, by decide⟩

/-- Witness for C6: a ReplicaSet, a document without `kind`, then a document with a
syntax error. -/
theorem C6_witness :
    GetLabelsFromYaml RangeOrder.listed
        (fsOf [mkDoc ReplicaSet "prod" [], noKindDoc, syntaxErrorDoc]) "f" =
      Outcome.returned none (some (Error.errorf noKindMsg)) ∧
      (Error.errorf noKindMsg).IsMalformedManifest ∧
      ¬ (Error.errorf noKindMsg).IsUnsupportedKind :=
  C6_missing_kind RangeOrder.listed
    (fsOf [mkDoc ReplicaSet "prod" [], noKindDoc, syntaxErrorDoc]) "f"
    [mkDoc ReplicaSet "prod" []] noKindDoc [syntaxErrorDoc] rfl
    (by
      intro p hp
      simp only [List.mem_singleton] at hp
      subst hp
      exact ⟨ReplicaSet, ⟨_, rfl, rfl⟩, Or.inr (Or.inr rfl)⟩)
    ⟨_, rfl, rfl⟩

/-- C7, the code at the failing inputs: a document that decodes successfully to a list,
to `null` or to a scalar makes the type assertion of `getKindsFromYaml` panic, so that
`GetLabelsFromYaml` neither returns a result nor returns an error; this also happens
after documents that were accepted. -/
theorem C7_type_assertion_panics :
    GetLabelsFromYaml RangeOrder.listed (fsOf [listDoc]) "f" = Outcome.panicked ∧
      GetLabelsFromYaml RangeOrder.listed (fsOf [nullDoc]) "f" = Outcome.panicked ∧
      GetLabelsFromYaml RangeOrder.listed
        (fsOf [mkDoc Deployment "" [("app", "foo")], listDoc]) "f" = Outcome.panicked ∧
      ∀ (ro : RangeOrder) (fs : FileSystem) (file : String) (pre post : List Document)
        (d : Document) (v : Value), fs file = Except.ok (pre ++ d :: post) →
        (∀ p ∈ pre, ∃ k, p.Accepted k) → d.untyped = Except.ok v →
        (∀ m, v ≠ Value.object m) → GetLabelsFromYaml ro fs file = Outcome.panicked := by
  refine ⟨by decide, by decide, by decide, ?_⟩
  intro ro fs file pre post d v hfile hpre hv hnm
  obtain ⟨ks, hks⟩ := accepted_of_forall pre hpre
  apply GetLabelsFromYaml_scanPanic
  rw [getKindsFromYaml_open fs file _ hfile, getKindsLoop_prefix pre (d :: post) ks [] hks,
    getKindsLoop_notMapping d post _ v hv hnm]

theorem forall_of_accepted (l : List Document) (ks : List String)
    (h : List.Forall₂ Document.Accepted l ks) : ∀ p ∈ l, ∃ k, p.Accepted k := by
  induction h with
  | nil => intro p hp; simp at hp
  | @cons d k l ks hd _ ih =>
    intro p hp
    rcases List.mem_cons.1 hp with rfl | hp
    · exact ⟨k, hd⟩
    · exact ih p hp

theorem accepted_not_scanFails (d : Document) (k : String) (e : Error) (h : d.Accepted k) :
    ¬ d.ScanFails e := by
  obtain ⟨m, hm, hp⟩ := h
  rintro (⟨de, hde, _⟩ | ⟨m2, s, hm2, hp2⟩)
  · rw [hm] at hde; injection hde
  · rw [hm] at hm2
    injection hm2 with hm2
    injection hm2 with hm2
    subst hm2
    rw [hp] at hp2
    simp at hp2

theorem scan_success_accepted (ds : List Document) (ks : List String)
    (hscan : getKindsLoop ds [] = Outcome.returned (some ks) none) :
    List.Forall₂ Document.Accepted ds ks := by
  rcases getKindsLoop_cases ds [] with ⟨ks2, hks, hr⟩ | ⟨_, _, _, _, e, _, _, _, hr⟩ |
      ⟨_, _, _, _, _, _, _, _, _, hr⟩
  · rw [hr] at hscan
    simp only [List.nil_append, Outcome.returned.injEq, Option.some.injEq, and_true] at hscan
    subst hscan
    exact hks
  · rw [hr] at hscan; simp at hscan
  · rw [hr] at hscan; simp at hscan

/-- C8: the error `GetLabelsFromYaml` returns is that of the first failure in pass
order.  (1) If a document fails in the scanning pass (decode failure or kind
validation) and every document before it is accepted, the call returns that
document's error, on this file and on every file that differs only after that
document.  (2) If the scanning pass accepts every document and a document's typed decode
fails while those before it succeed, the call returns that decode error.
(3) Conversely every error the call returns arises in one of these two ways, and
(4) the two ways exclude each other: a document accepted by the scan does not fail in
it. -/
theorem C8_first_failure (ro : RangeOrder) (fs : FileSystem) (file : String)
    (ds : List Document) (hfile : fs file = Except.ok ds) :
    (∀ (pre : List Document) (d : Document) (post : List Document) (e : Error),
      ds = pre ++ d :: post → (∀ p ∈ pre, ∃ k, p.Accepted k) → d.ScanFails e →
      GetLabelsFromYaml ro fs file = Outcome.returned none (some e) ∧
      ∀ (fs2 : FileSystem) (file2 : String) (post2 : List Document),
        fs2 file2 = Except.ok (pre ++ d :: post2) →
        GetLabelsFromYaml ro fs2 file2 = Outcome.returned none (some e)) ∧
    (∀ (pre : List Document) (d : Document) (post : List Document) (k : String)
      (de : DecodeError),
      ds = pre ++ d :: post → (∀ p ∈ ds, ∃ k, p.Accepted k) →
      (∀ p ∈ pre, ∀ k, p.HasKind k → ∃ ns L, p.DecodesTo k ns L) →
      d.HasKind k → d.TypedFails k de →
      GetLabelsFromYaml ro fs file = Outcome.returned none (some (Error.decode de))) ∧
    (∀ (v : Option (List (List String))) (e : Error),
      GetLabelsFromYaml ro fs file = Outcome.returned v (some e) →
      (∃ pre d post, ds = pre ++ d :: post ∧ (∀ p ∈ pre, ∃ k, p.Accepted k) ∧
        d.ScanFails e) ∨
      ((∀ p ∈ ds, ∃ k, p.Accepted k) ∧
        ∃ pre d post k de, ds = pre ++ d :: post ∧
          (∀ p ∈ pre, ∀ k, p.HasKind k → ∃ ns L, p.DecodesTo k ns L) ∧
          d.HasKind k ∧ d.TypedFails k de ∧ e = Error.decode de)) ∧
    (∀ d ∈ ds, ∀ (k : String) (e : Error), d.Accepted k → ¬ d.ScanFails e) := by
  refine ⟨?_, ?_, ?_, fun d _ k e h => accepted_not_scanFails d k e h⟩
  · intro pre d post e hds hpre hd
    subst hds
    refine ⟨(GetLabelsFromYaml_scanFails ro fs file pre d post e hfile hpre hd).2, ?_⟩
    intro fs2 file2 post2 h2
    exact (GetLabelsFromYaml_scanFails ro fs2 file2 pre d post2 e h2 hpre hd).2
  · intro pre d post k de hds hall hpre hk hd
    subst hds
    obtain ⟨_, _, _, _, _, hres⟩ :=
      GetLabelsFromYaml_typedFails ro fs file pre d post k de hfile hall hpre hk hd
    exact hres
  · intro v e hres
    rcases getKindsLoop_cases ds [] with ⟨ks, hks, hr⟩ | ⟨pre, x, post, ks, e2, hds, hks, hf, hr⟩ |
        ⟨pre, x, post, ks, w, _, _, _, _, hr⟩
    · rw [GetLabelsFromYaml_scanned ro fs file ds ks hfile (by simpa using hr)] at hres
      rcases labelsLoop_cases ro ds ks 0 [] hks with ⟨gs, _, hl⟩ |
          ⟨pre, x, post, kpre, k, kpost, gs, de, hds, _, hap, hax, hgs, hf, hl⟩ |
          ⟨_, _, _, _, _, _, _, _, _, _, _, _, _, hl⟩
      · rw [hl] at hres; simp at hres
      · rw [hl] at hres
        simp only [Outcome.returned.injEq, Option.some.injEq] at hres
        exact Or.inr ⟨forall_of_accepted ds ks hks, pre, x, post, k, de, hds,
          groupsOf_forall ro 0 pre kpre gs hgs hap, ((accepted_iff x k).1 hax).1, hf,
          hres.2.symm⟩
      · rw [hl] at hres; simp at hres
    · rw [GetLabelsFromYaml_scanError ro fs file none e2
        (by rw [getKindsFromYaml_open fs file ds hfile]; exact hr)] at hres
      simp only [Outcome.returned.injEq, Option.some.injEq] at hres
      obtain ⟨_, rfl⟩ := hres
      exact Or.inl ⟨pre, x, post, hds, forall_of_accepted pre ks hks, hf⟩
    · rw [GetLabelsFromYaml_scanPanic ro fs file
        (by rw [getKindsFromYaml_open fs file ds hfile]; exact hr)] at hres
      simp at hres

/-- Witness for C8: a Deployment, a document with a syntax error, then a document
without `kind`; the error is that of the second document. -/
theorem C8_witness :
    GetLabelsFromYaml RangeOrder.listed
        (fsOf [mkDoc Deployment "" [("app", "foo")], syntaxErrorDoc, noKindDoc]) "f" =
      Outcome.returned none (some (Error.decode
        ⟨"yaml: line 2: mapping values are not allowed in this context"⟩)) ∧
    GetLabelsFromYaml RangeOrder.listed
        (fsOf [mkDoc Deployment "" [("app", "foo")], badSpecDoc, mkDoc ReplicaSet "" []]) "f" =
      Outcome.returned none (some (Error.decode sampleTypeError)) :=
  ⟨((C8_first_failure RangeOrder.listed
      (fsOf [mkDoc Deployment "" [("app", "foo")], syntaxErrorDoc, noKindDoc]) "f"
      [mkDoc Deployment "" [("app", "foo")], syntaxErrorDoc, noKindDoc] rfl).1
      [mkDoc Deployment "" [("app", "foo")]] syntaxErrorDoc [noKindDoc] _ rfl
      (by
        intro p hp
        simp only [List.mem_singleton] at hp
        subst hp
        exact ⟨Deployment, _, rfl, by decide⟩)
      (Or.inl ⟨_, rfl, rfl⟩)).1,
    (C8_first_failure RangeOrder.listed
      (fsOf [mkDoc Deployment "" [("app", "foo")], badSpecDoc, mkDoc ReplicaSet "" []]) "f"
      [mkDoc Deployment "" [("app", "foo")], badSpecDoc, mkDoc ReplicaSet "" []] rfl).2.1
      [mkDoc Deployment "" [("app", "foo")]] badSpecDoc [mkDoc ReplicaSet "" []] Deployment
      sampleTypeError rfl
      (by
        intro p hp
        simp only [List.mem_cons, List.mem_singleton, List.not_mem_nil, or_false] at hp
        rcases hp with rfl | rfl | rfl
        · exact ⟨Deployment, _, rfl, by decide⟩
        · exact ⟨Deployment, _, rfl, by decide⟩
        · exact ⟨ReplicaSet, _, rfl, by decide⟩)
      (by
        intro p hp k hk
        simp only [List.mem_singleton] at hp
        subst hp
        have := hasKind_unique _ k Deployment hk ⟨_, rfl, rfl⟩
        subst this
        exact ⟨_, _, Or.inl ⟨rfl, _, rfl, rfl, rfl⟩⟩)
      ⟨_, rfl, rfl⟩ (Or.inl ⟨rfl, rfl⟩)⟩

/-- C9: no partial result on error.  (1) If `getKindsFromYaml` fails with error `e`, its
own result is nil and `GetLabelsFromYaml` returns exactly `e` with the nil sequence.
(2) If the scan succeeds and the typed decode of document `i` (the one after the
prefix `pre`) fails, the loop has built `i` groups when it reaches that document, and
the call returns the decode error with the nil sequence. -/
theorem C9_no_partial_result (ro : RangeOrder) (fs : FileSystem) (file : String) :
    (∀ (v : Option (List String)) (e : Error),
      getKindsFromYaml fs file = Outcome.returned v (some e) →
      v = none ∧ GetLabelsFromYaml ro fs file = Outcome.returned none (some e)) ∧
    (∀ (ds : List Document) (ks : List String) (pre : List Document) (d : Document)
      (post : List Document) (k : String) (de : DecodeError),
      fs file = Except.ok ds → ds = pre ++ d :: post →
      getKindsFromYaml fs file = Outcome.returned (some ks) none →
      (∀ p ∈ pre, ∀ k, p.HasKind k → ∃ ns L, p.DecodesTo k ns L) →
      d.HasKind k → d.TypedFails k de →
      (∃ built : List (List String), built.length = pre.length ∧
        labelsLoop ro ks ds 0 [] =
          labelsLoop ro (ks.drop pre.length) (d :: post) pre.length built) ∧
      GetLabelsFromYaml ro fs file = Outcome.returned none (some (Error.decode de))) := by
  constructor
  · intro v e hscan
    refine ⟨?_, GetLabelsFromYaml_scanError ro fs file v e hscan⟩
    cases hf : fs file with
    | error pe => simp [getKindsFromYaml, hf] at hscan; exact hscan.1.symm
    | ok ds =>
      rw [getKindsFromYaml_open fs file ds hf] at hscan
      rcases getKindsLoop_cases ds [] with ⟨_, _, hr⟩ | ⟨_, _, _, _, _, _, _, _, hr⟩ |
          ⟨_, _, _, _, _, _, _, _, _, hr⟩
      · rw [hr] at hscan; simp at hscan
      · rw [hr] at hscan; simp at hscan; exact hscan.1.symm
      · rw [hr] at hscan; simp at hscan
  · intro ds ks pre d post k de hfile hds hscan hpre hk hd
    subst hds
    have hacc := scan_success_accepted _ ks
      (by rw [← getKindsFromYaml_open fs file _ hfile]; exact hscan)
    obtain ⟨ks2, built, hscan2, hlen, hloop, hres⟩ :=
      GetLabelsFromYaml_typedFails ro fs file pre d post k de hfile
        (forall_of_accepted _ ks hacc) hpre hk hd
    rw [hscan] at hscan2
    simp only [Outcome.returned.injEq, Option.some.injEq, and_true] at hscan2
    subst hscan2
    exact ⟨⟨built, hlen, hloop⟩, hres⟩

/-- Witness for C9: the scanning error of a document without `kind` is passed on, and
a typed decode failure at the second document discards the group already built. -/
theorem C9_witness :
    (none = (none : Option (List String)) ∧
      GetLabelsFromYaml RangeOrder.listed (fsOf [noKindDoc]) "f" =
        Outcome.returned none (some (Error.errorf noKindMsg))) ∧
    ((∃ built : List (List String),
        built.length = [mkDoc Deployment "" [("app", "foo")]].length ∧
        labelsLoop RangeOrder.listed [Deployment, Deployment]
            [mkDoc Deployment "" [("app", "foo")], badSpecDoc] 0 [] =
          labelsLoop RangeOrder.listed
            ([Deployment, Deployment].drop [mkDoc Deployment "" [("app", "foo")]].length)
            [badSpecDoc] [mkDoc Deployment "" [("app", "foo")]].length built) ∧
      GetLabelsFromYaml RangeOrder.listed
          (fsOf [mkDoc Deployment "" [("app", "foo")], badSpecDoc]) "f" =
        Outcome.returned none (some (Error.decode sampleTypeError))) :=
  ⟨(C9_no_partial_result RangeOrder.listed (fsOf [noKindDoc]) "f").1 none
      (Error.errorf noKindMsg) (by decide),
    (C9_no_partial_result RangeOrder.listed
      (fsOf [mkDoc Deployment "" [("app", "foo")], badSpecDoc]) "f").2
      [mkDoc Deployment "" [("app", "foo")], badSpecDoc] [Deployment, Deployment]
      [mkDoc Deployment "" [("app", "foo")]] badSpecDoc [] Deployment sampleTypeError
      rfl rfl (by decide)
      (by
        intro p hp k hk
        simp only [List.mem_singleton] at hp
        subst hp
        have := hasKind_unique _ k Deployment hk ⟨_, rfl, rfl⟩
        subst this
        exact ⟨_, _, Or.inl ⟨rfl, _, rfl, rfl, rfl⟩⟩)
      ⟨_, rfl, rfl⟩ (Or.inl ⟨rfl, rfl⟩)⟩

/-- C10: on a file with zero documents (the decoder signals end-of-stream on its first
call) `getKindsFromYaml` returns the empty kind sequence with no error and
`GetLabelsFromYaml` returns the empty sequence of label groups with no error. -/
theorem C10_empty_file (ro : RangeOrder) (fs : FileSystem) (file : String)
    (hfile : fs file = Except.ok []) :
    getKindsFromYaml fs file = Outcome.returned (some []) none ∧
      GetLabelsFromYaml ro fs file = Outcome.returned (some []) none := by
  constructor
  · simp [getKindsFromYaml, hfile, getKindsLoop]
  · simp [GetLabelsFromYaml, getKindsFromYaml, hfile, getKindsLoop, labelsLoop]

/-- Witness for C10 (scenario 4): the empty file. -/
theorem C10_witness :
    fsOf [] "f" = Except.ok [] ∧
      getKindsFromYaml (fsOf []) "f" = Outcome.returned (some []) none ∧
      GetLabelsFromYaml RangeOrder.listed (fsOf []) "f" = Outcome.returned (some []) none :=
  ⟨rfl, C10_empty_file RangeOrder.listed (fsOf []) "f" rfl⟩

/-! ## Further lemmas on the scanning loop -/

theorem accepted_supported (ds : List Document) (ks : List String)
    (h : List.Forall₂ Document.Accepted ds ks) : ∀ k ∈ ks, Supported k := by
  induction h with
  | nil => intro k hk; simp at hk
  | @cons d k0 ds ks hd _ ih =>
    intro k hk
    rcases List.mem_cons.1 hk with rfl | hk
    · exact ((accepted_iff d k).1 hd).2
    · exact ih k hk

theorem accepted_hasKind (ds : List Document) (ks : List String)
    (h : List.Forall₂ Document.Accepted ds ks) : List.Forall₂ Document.HasKind ds ks :=
  h.imp (fun {d k} hdk => ((accepted_iff d k).1 hdk).1)

theorem getKindsLoop_all_accepted (ds : List Document) (ks : List String)
    (h : List.Forall₂ Document.Accepted ds ks) :
    getKindsLoop ds [] = Outcome.returned (some ks) none := by
  have := getKindsLoop_prefix ds [] ks [] h
  simpa [getKindsLoop] using this

/-- C11: when the untyped decode of a document fails (with a decoder error, which is
never `io.EOF`) and every document before it is a mapping with a supported kind,
`getKindsFromYaml` returns the nil kind sequence together with that decoder error,
unchanged, although the loop had accumulated one kind per earlier document.
Moreover a scan that returns without error has met no failing decode: the only decoder
error that ends the loop successfully is the end-of-stream after the last document. -/
theorem C11_decode_error_discards_kinds (fs : FileSystem) (file : String)
    (pre : List Document) (d : Document) (post : List Document) (de : DecodeError)
    (hfile : fs file = Except.ok (pre ++ d :: post))
    (hpre : ∀ p ∈ pre, ∃ k, p.HasKind k ∧ Supported k)
    (hd : d.untyped = Except.error de) :
    getKindsFromYaml fs file = Outcome.returned none (some (Error.decode de)) ∧
    Error.decode de ≠ Error.EOF ∧
    (∃ ks : List String, ks.length = pre.length ∧ List.Forall₂ Document.HasKind pre ks ∧
      getKindsLoop (pre ++ d :: post) [] = getKindsLoop (d :: post) ks ∧
      getKindsLoop (d :: post) ks = Outcome.returned none (some (Error.decode de))) ∧
    (∀ (fs2 : FileSystem) (file2 : String) (ds : List Document) (v : Option (List String)),
      fs2 file2 = Except.ok ds → getKindsFromYaml fs2 file2 = Outcome.returned v none →
      ∀ p ∈ ds, ∀ e : DecodeError, p.untyped ≠ Except.error e) := by
  obtain ⟨ks, hks⟩ := accepted_of_forall pre (accepted_of_supported pre hpre)
  refine ⟨?_, by simp, ⟨ks, hks.length_eq.symm, accepted_hasKind pre ks hks, ?_,
    getKindsLoop_decodeError d post ks de hd⟩, ?_⟩
  · rw [getKindsFromYaml_open fs file _ hfile, getKindsLoop_prefix pre (d :: post) ks [] hks,
      getKindsLoop_decodeError d post _ de hd]
  · simpa using getKindsLoop_prefix pre (d :: post) ks [] hks
  · intro fs2 file2 ds v hf2 hscan p hp e he
    rw [getKindsFromYaml_open fs2 file2 ds hf2] at hscan
    rcases getKindsLoop_cases ds [] with ⟨ks2, hks2, _⟩ | ⟨_, _, _, _, _, _, _, _, hr⟩ |
        ⟨_, _, _, _, _, _, _, _, _, hr⟩
    · obtain ⟨k, m, hm, _⟩ := forall_of_accepted ds ks2 hks2 p hp
      rw [hm] at he
      injection he
    · rw [hr] at hscan; simp at hscan
    · rw [hr] at hscan; simp at hscan

/-- Witness for C11 (scenario 5): a Deployment followed by a document with a YAML
syntax error and a further ReplicaSet. -/
theorem C11_witness :
    getKindsFromYaml
        (fsOf [mkDoc Deployment "" [("app", "foo")], syntaxErrorDoc, mkDoc ReplicaSet "" []]) "f" =
      Outcome.returned none (some (Error.decode
        ⟨"yaml: line 2: mapping values are not allowed in this context"⟩)) ∧
    getKindsLoop [mkDoc Deployment "" [("app", "foo")], syntaxErrorDoc, mkDoc ReplicaSet "" []] [] =
      getKindsLoop [syntaxErrorDoc, mkDoc ReplicaSet "" []] [Deployment] :=
  ⟨(C11_decode_error_discards_kinds
      (fsOf [mkDoc Deployment "" [("app", "foo")], syntaxErrorDoc, mkDoc ReplicaSet "" []]) "f"
      [mkDoc Deployment "" [("app", "foo")]] syntaxErrorDoc [mkDoc ReplicaSet "" []] _ rfl
      (by
        intro p hp
        simp only [List.mem_singleton] at hp
        subst hp
        exact ⟨Deployment, ⟨_, rfl, rfl⟩, Or.inl rfl⟩)
      rfl).1,
    by decide⟩

/-- C12: on a file of `n` documents that all decode to mappings whose `kind` is one of the
three supported strings, `getKindsFromYaml` returns, with no error, a sequence of length
`n` whose `i`-th element is the `kind` of the `i`-th document (the loop is a structural
recursion over the documents, so it always terminates). -/
theorem C12_kinds_in_file_order (fs : FileSystem) (file : String) (ds : List Document)
    (hfile : fs file = Except.ok ds)
    (hall : ∀ d ∈ ds, ∃ k, d.HasKind k ∧ Supported k) :
    ∃ ks : List String, getKindsFromYaml fs file = Outcome.returned (some ks) none ∧
      ks.length = ds.length ∧ List.Forall₂ Document.HasKind ds ks ∧
      ∀ (i : Nat) (d : Document) (k : String), ds[i]? = some d → d.HasKind k →
        ks[i]? = some k := by
  obtain ⟨ks, hks⟩ := accepted_of_forall ds (accepted_of_supported ds hall)
  refine ⟨ks, ?_, hks.length_eq.symm, accepted_hasKind ds ks hks, ?_⟩
  · rw [getKindsFromYaml_open fs file ds hfile, getKindsLoop_all_accepted ds ks hks]
  · intro i d k hd hk
    obtain ⟨k2, hk2, hacc⟩ := accepted_get ds ks hks i d hd
    rw [hasKind_unique d k k2 hk ((accepted_iff d k2).1 hacc).1]
    exact hk2

/-- Witness for C12: a ReplicaSet, a Deployment and a ReplicationController. -/
theorem C12_witness :
    ∃ ks : List String,
      getKindsFromYaml
          (fsOf [mkDoc ReplicaSet "a" [], mkDoc Deployment "" [("app", "foo")],
            mkDoc ReplicationController "b" []]) "f" = Outcome.returned (some ks) none ∧
      ks.length =
        [mkDoc ReplicaSet "a" [], mkDoc Deployment "" [("app", "foo")],
          mkDoc ReplicationController "b" []].length ∧
      List.Forall₂ Document.HasKind
        [mkDoc ReplicaSet "a" [], mkDoc Deployment "" [("app", "foo")],
          mkDoc ReplicationController "b" []] ks ∧
      ∀ (i : Nat) (d : Document) (k : String),
        [mkDoc ReplicaSet "a" [], mkDoc Deployment "" [("app", "foo")],
          mkDoc ReplicationController "b" []][i]? = some d → d.HasKind k → ks[i]? = some k :=
  C12_kinds_in_file_order
    (fsOf [mkDoc ReplicaSet "a" [], mkDoc Deployment "" [("app", "foo")],
      mkDoc ReplicationController "b" []]) "f"
    [mkDoc ReplicaSet "a" [], mkDoc Deployment "" [("app", "foo")],
      mkDoc ReplicationController "b" []] rfl
    (by
      intro d hd
      simp only [List.mem_cons, List.mem_singleton, List.not_mem_nil, or_false] at hd
      rcases hd with rfl | rfl | rfl
      · exact ⟨ReplicaSet, ⟨_, rfl, rfl⟩, Or.inr (Or.inr rfl)⟩
      · exact ⟨Deployment, ⟨_, rfl, rfl⟩, Or.inl rfl⟩
      · exact ⟨ReplicationController, ⟨_, rfl, rfl⟩, Or.inr (Or.inl rfl)⟩)

/-! ## Further lemmas on the second pass -/

theorem labelsLoop_eof (ro : RangeOrder) (k : String) (ks : List String) (i : Nat)
    (acc : List (List String)) (hk : Supported k) :
    labelsLoop ro (k :: ks) [] i acc = Outcome.returned none (some Error.EOF) := by
  have hd := kinds_distinct
  rcases hk with rfl | rfl | rfl
  · simp [labelsLoop, decodeDeployment]
  · simp [labelsLoop, decodeController, hd.1.symm]
  · simp [labelsLoop, decodeReplicaSet, hd.2.1.symm, hd.2.2.symm]

theorem labelsLoop_default (ro : RangeOrder) (k : String) (ks : List String)
    (stream : List Document) (i : Nat) (acc : List (List String)) (hk : ¬ Supported k) :
    labelsLoop ro (k :: ks) stream i acc =
      Outcome.returned none (some (Error.errorf unsupportedMsg)) := by
  unfold Supported at hk
  simp only [not_or] at hk
  simp [labelsLoop, hk.1, hk.2.1, hk.2.2]

theorem labelsLoop_no_errorf (ro : RangeOrder) (ks : List String)
    (hks : ∀ k ∈ ks, Supported k) (stream : List Document) (i : Nat)
    (acc : List (List String)) (v : Option (List (List String))) (msg : String) :
    labelsLoop ro ks stream i acc ≠ Outcome.returned v (some (Error.errorf msg)) := by
  induction ks generalizing stream i acc with
  | nil => simp [labelsLoop]
  | cons k ks ih =>
    have hk : Supported k := hks k (List.mem_cons_self k ks)
    have hrest : ∀ k2 ∈ ks, Supported k2 := fun k2 h2 => hks k2 (List.mem_cons_of_mem k h2)
    cases stream with
    | nil => rw [labelsLoop_eof ro k ks i acc hk]; simp
    | cons d rest =>
      rcases typed_total d k hk with ⟨ns, L, hok⟩ | ⟨e, he⟩ | hn
      · rw [labelsLoop_ok ro k ks d rest i acc ns L hok]
        exact ih hrest rest (i + 1) _
      · rw [labelsLoop_err ro k ks d rest i acc e he]; simp
      · rw [labelsLoop_nilTemplate ro k ks d rest i acc hn]; simp

theorem getKindsFromYaml_supported (fs : FileSystem) (file : String) (ks : List String)
    (hscan : getKindsFromYaml fs file = Outcome.returned (some ks) none) :
    ∀ k ∈ ks, Supported k := by
  cases hf : fs file with
  | error pe => simp [getKindsFromYaml, hf] at hscan
  | ok ds =>
    rw [getKindsFromYaml_open fs file ds hf] at hscan
    exact accepted_supported ds ks (scan_success_accepted ds ks hscan)

theorem string_append_left_cancel (a b c : String) (h : a ++ b = a ++ c) : b = c := by
  have h2 := congrArg String.data h
  simp only [String.data_append] at h2
  exact String.ext (List.append_cancel_left h2)

theorem generate_injective (k v w : String)
    (h : GenerateK8sLabelString k v = GenerateK8sLabelString k w) : v = w := by
  rw [generate_eq, generate_eq] at h
  exact string_append_left_cancel _ v w h

theorem single_doc_group (ro : RangeOrder) (file : String) (d : Document) (k ns : String)
    (L : StringMap) (hk : d.HasKind k) (hL : d.DecodesTo k ns L) (hs : Supported k) :
    GetLabelsFromYaml ro (fsOf [d]) file =
      Outcome.returned (some [labelGroup ro 0 ns L]) none := by
  have hacc : List.Forall₂ Document.Accepted [d] [k] :=
    List.Forall₂.cons ((accepted_iff d k).2 ⟨hk, hs⟩) List.Forall₂.nil
  rw [GetLabelsFromYaml_scanned ro (fsOf [d]) file [d] [k] rfl
    (getKindsLoop_all_accepted [d] [k] hacc), labelsLoop_ok ro k [] d [] 0 [] ns L hL]
  simp [labelsLoop]

/-- C13: every element of a kind sequence that `getKindsFromYaml` returns without error
is one of `Deployment`, `ReplicationController`, `ReplicaSet` (1).  The `default` branch of
the switch in `GetLabelsFromYaml` is what an unsupported kind would take, and it returns
an error built by `fmt.Errorf` (2); on kinds that are all supported the second-pass loop
never returns such an error, whatever the stream holds (3); hence every `fmt.Errorf`
error that `GetLabelsFromYaml` returns is the one `getKindsFromYaml` returned, and none
comes from the `default` branch (4). -/
theorem C13_default_branch_unreachable (ro : RangeOrder) (fs : FileSystem) (file : String) :
    (∀ ks : List String, getKindsFromYaml fs file = Outcome.returned (some ks) none →
      ∀ k ∈ ks, k = "Deployment" ∨ k = "ReplicationController" ∨ k = "ReplicaSet") ∧
    (∀ (k : String) (ks : List String) (stream : List Document) (i : Nat)
      (acc : List (List String)), ¬ Supported k →
      labelsLoop ro (k :: ks) stream i acc =
        Outcome.returned none (some (Error.errorf unsupportedMsg))) ∧
    (∀ (ks : List String), (∀ k ∈ ks, Supported k) →
      ∀ (stream : List Document) (i : Nat) (acc : List (List String))
        (v : Option (List (List String))) (msg : String),
        labelsLoop ro ks stream i acc ≠ Outcome.returned v (some (Error.errorf msg))) ∧
    (∀ (v : Option (List (List String))) (msg : String),
      GetLabelsFromYaml ro fs file = Outcome.returned v (some (Error.errorf msg)) →
      ∃ w, getKindsFromYaml fs file = Outcome.returned w (some (Error.errorf msg))) := by
  refine ⟨fun ks h k hk => getKindsFromYaml_supported fs file ks h k hk,
    fun k ks stream i acc hk => labelsLoop_default ro k ks stream i acc hk,
    fun ks hks stream i acc v msg => labelsLoop_no_errorf ro ks hks stream i acc v msg, ?_⟩
  intro v msg hres
  cases hscan : getKindsFromYaml fs file with
  | panicked => rw [GetLabelsFromYaml_scanPanic ro fs file hscan] at hres; simp at hres
  | returned w oe =>
    cases oe with
    | some e =>
      rw [GetLabelsFromYaml_scanError ro fs file w e hscan] at hres
      simp only [Outcome.returned.injEq, Option.some.injEq] at hres
      exact ⟨w, by rw [hres.2]⟩
    | none =>
      exfalso
      cases hf : fs file with
      | error pe => simp [getKindsFromYaml, hf] at hscan
      | ok ds =>
        have hsup : ∀ k ∈ w.getD [], Supported k := by
          cases w with
          | none => intro k hk; simp at hk
          | some ks => exact getKindsFromYaml_supported fs file ks hscan
        have hg : GetLabelsFromYaml ro fs file = labelsLoop ro (w.getD []) ds 0 [] := by
          simp [GetLabelsFromYaml, hscan, hf]
        rw [hg] at hres
        exact labelsLoop_no_errorf ro _ hsup ds 0 [] v msg hres

/-- The second pass on a Deployment with labels followed by a ReplicationController
manifest without `spec.template`: both typed decodes succeed, and the call panics when
it reads the labels through the nil template pointer. -/
theorem GetLabelsFromYaml_nilTemplate_panics :
    getKindsFromYaml
        (fsOf [mkDoc Deployment "" [("app", "foo")],
          noTemplateDoc ReplicationController "prod"]) "f" =
      Outcome.returned (some [Deployment, ReplicationController]) none ∧
    GetLabelsFromYaml RangeOrder.listed
        (fsOf [mkDoc Deployment "" [("app", "foo")],
          noTemplateDoc ReplicationController "prod"]) "f" = Outcome.panicked ∧
    GetLabelsFromYaml RangeOrder.listed (fsOf [noTemplateDoc Deployment "prod"]) "f" =
      Outcome.returned (some [["k8s:io.kubernetes.pod.namespace=prod"]]) none := by
  refine ⟨by decide, by decide, by decide⟩

/-- C14: the label group does not depend on the kind.  For every namespace `ns` and
pod-template label map `L`, one iteration of the loop on a document whose typed decode
holds `ns` and `L` appends the same group `labelGroup ro i ns L` in the Deployment branch,
the ReplicationController branch (where `L` is read through the template pointer) and
the ReplicaSet branch, and a file with that single document yields that group for each
of the three kinds; `labelGroup` is the namespace label of the effective namespace
followed by the formatted entries in iteration order.  The branches differ only where
there is no label map to read: on a nil template pointer the ReplicationController
branch builds no group and panics. -/
theorem C14_group_independent_of_kind (ro : RangeOrder) (ns : String) (L : StringMap) :
    (∀ (d : Document) (ks : List String) (rest : List Document) (i : Nat)
      (acc : List (List String)),
      (d.deployment = Except.ok ⟨ns, ⟨⟨L⟩⟩⟩ →
        labelsLoop ro (Deployment :: ks) (d :: rest) i acc =
          labelsLoop ro ks rest (i + 1) (acc ++ [labelGroup ro i ns L])) ∧
      (d.controller = Except.ok ⟨ns, ⟨some ⟨L⟩⟩⟩ →
        labelsLoop ro (ReplicationController :: ks) (d :: rest) i acc =
          labelsLoop ro ks rest (i + 1) (acc ++ [labelGroup ro i ns L])) ∧
      (d.rep = Except.ok ⟨ns, ⟨⟨L⟩⟩⟩ →
        labelsLoop ro (ReplicaSet :: ks) (d :: rest) i acc =
          labelsLoop ro ks rest (i + 1) (acc ++ [labelGroup ro i ns L]))) ∧
    (∀ file : String,
      GetLabelsFromYaml ro (fsOf [mkDoc Deployment ns L]) file =
        Outcome.returned (some [labelGroup ro 0 ns L]) none ∧
      GetLabelsFromYaml ro (fsOf [mkDoc ReplicationController ns L]) file =
        Outcome.returned (some [labelGroup ro 0 ns L]) none ∧
      GetLabelsFromYaml ro (fsOf [mkDoc ReplicaSet ns L]) file =
        Outcome.returned (some [labelGroup ro 0 ns L]) none) ∧
    (∀ i : Nat, labelGroup ro i ns L =
      GenerateK8sLabelString K8sNamespaceLabel (if ns = "" then DefaultNamespace else ns) ::
        (ro.order i L).map (fun kv => GenerateK8sLabelString kv.1 kv.2)) ∧
    (∀ (d : Document) (ks : List String) (rest : List Document) (i : Nat)
      (acc : List (List String)), d.controller = Except.ok ⟨ns, ⟨none⟩⟩ →
      labelsLoop ro (ReplicationController :: ks) (d :: rest) i acc = Outcome.panicked) := by
  refine ⟨?_, ?_, ?_, ?_⟩
  · intro d ks rest i acc
    exact ⟨fun h => labelsLoop_ok ro _ ks d rest i acc ns L (Or.inl ⟨rfl, _, h, rfl, rfl⟩),
      fun h => labelsLoop_ok ro _ ks d rest i acc ns L
        (Or.inr (Or.inl ⟨rfl, _, _, h, rfl, rfl, rfl⟩)),
      fun h => labelsLoop_ok ro _ ks d rest i acc ns L (Or.inr (Or.inr ⟨rfl, _, h, rfl, rfl⟩))⟩
  · intro file
    exact ⟨single_doc_group ro file _ Deployment ns L ⟨_, rfl, rfl⟩
        (Or.inl ⟨rfl, _, rfl, rfl, rfl⟩) (Or.inl rfl),
      single_doc_group ro file _ ReplicationController ns L ⟨_, rfl, rfl⟩
        (Or.inr (Or.inl ⟨rfl, _, _, rfl, rfl, rfl, rfl⟩)) (Or.inr (Or.inl rfl)),
      single_doc_group ro file _ ReplicaSet ns L ⟨_, rfl, rfl⟩
        (Or.inr (Or.inr ⟨rfl, _, rfl, rfl, rfl⟩)) (Or.inr (Or.inr rfl))⟩
  · intro i
    by_cases h : ns = "" <;> simp [labelGroup, h]
  · intro d ks rest i acc h
    exact labelsLoop_nilTemplate ro _ ks d rest i acc ⟨rfl, _, h, rfl⟩

/-- C15: the namespace label need not be unique within a group.  When the pod-template
labels of a document hold the key `io.kubernetes.pod.namespace` with a value `v` other
than the effective namespace, the group returned for the document contains both the
namespace label of the effective namespace and the namespace-keyed label of `v`, two
different strings; no label is filtered or merged, the group has one element more than
the label map has entries. -/
theorem C15_namespace_label_not_unique (ro : RangeOrder) (fs : FileSystem) (file : String)
    (ds : List Document) (groups : List (List String)) (i : Nat) (d : Document)
    (k ns v : String) (L : StringMap) (hfile : fs file = Except.ok ds)
    (hres : GetLabelsFromYaml ro fs file = Outcome.returned (some groups) none)
    (hd : ds[i]? = some d) (hk : d.HasKind k) (hL : d.DecodesTo k ns L)
    (hv : (K8sNamespaceLabel, v) ∈ L)
    (hne : v ≠ (if ns = "" then DefaultNamespace else ns)) :
    ∃ g, groups[i]? = some g ∧
      GenerateK8sLabelString K8sNamespaceLabel (if ns = "" then DefaultNamespace else ns) ∈ g ∧
      GenerateK8sLabelString K8sNamespaceLabel v ∈ g ∧
      GenerateK8sLabelString K8sNamespaceLabel (if ns = "" then DefaultNamespace else ns) ≠
        GenerateK8sLabelString K8sNamespaceLabel v ∧
      g.length = 1 + L.length := by
  refine ⟨_, GetLabelsFromYaml_group ro fs file ds groups i d k ns L hfile hres hd hk hL,
    ?_, ?_, ?_, ?_⟩
  · by_cases h : ns = "" <;> simp [labelGroup, h]
  · have hmem : (K8sNamespaceLabel, v) ∈ ro.order i L := (ro.perm i L).mem_iff.2 hv
    exact List.mem_cons_of_mem _
      (List.mem_map.2 ⟨(K8sNamespaceLabel, v), hmem, rfl⟩)
  · intro h
    exact hne (generate_injective _ _ _ h).symm
  · simp [labelGroup, (ro.perm i L).length_eq, Nat.add_comm]

/-- Witness for C15: a Deployment in namespace `prod` whose pod template carries the
label `io.kubernetes.pod.namespace: other`. -/
theorem C15_witness :
    GetLabelsFromYaml RangeOrder.listed
        (fsOf [mkDoc Deployment "prod" [("io.kubernetes.pod.namespace", "other")]]) "f" =
      Outcome.returned (some [["k8s:io.kubernetes.pod.namespace=prod",
        "k8s:io.kubernetes.pod.namespace=other"]]) none ∧
    ∃ g, [["k8s:io.kubernetes.pod.namespace=prod",
        "k8s:io.kubernetes.pod.namespace=other"]][0]? = some g ∧
      GenerateK8sLabelString K8sNamespaceLabel (if "prod" = "" then DefaultNamespace else "prod")
        ∈ g ∧
      GenerateK8sLabelString K8sNamespaceLabel "other" ∈ g ∧
      GenerateK8sLabelString K8sNamespaceLabel (if "prod" = "" then DefaultNamespace else "prod") ≠
        GenerateK8sLabelString K8sNamespaceLabel "other" ∧
      g.length = 1 + [("io.kubernetes.pod.namespace", "other")].length :=
  ⟨by decide,
    C15_namespace_label_not_unique RangeOrder.listed
      (fsOf [mkDoc Deployment "prod" [("io.kubernetes.pod.namespace", "other")]]) "f"
      [mkDoc Deployment "prod" [("io.kubernetes.pod.namespace", "other")]]
      [["k8s:io.kubernetes.pod.namespace=prod", "k8s:io.kubernetes.pod.namespace=other"]] 0
      (mkDoc Deployment "prod" [("io.kubernetes.pod.namespace", "other")]) Deployment "prod"
      "other" [("io.kubernetes.pod.namespace", "other")] rfl (by decide) rfl ⟨_, rfl, rfl⟩
      (Or.inl ⟨rfl, _, rfl, rfl, rfl⟩) (by decide) (by decide)⟩

end Trace
